import Mathlib

/-!
Verification development for the deterministic-caching vendor-intelligence
pipeline of `agents/vendor_intel_agent.py`.

The Python module is shallowly embedded below:
* Python numbers are modelled by exact rationals (`ℚ`); `round(x, 2)` is
  modelled by round-half-even to a multiple of 1/100.
* Python runtime values appearing in the analysis dictionaries are modelled
  by the inductive type `PyVal`.
* Exceptions are modelled by `Except`; the data store, the two LLM
  providers and the clock are modelled by an explicit environment `Env`.
* Side effects (provider calls, store reads/writes, Streamlit messages)
  are recorded in an explicit event trace.
-/

namespace VendorIntel

/-- Round-half-even of a rational to an integer (model of Python `round(x)`
applied to an exact value; ties go to the even integer). -/
def rhe (x : ℚ) : ℤ :=
  let n : ℤ := ⌊x⌋
  let f : ℚ := x - n
  if f < 1/2 then n
  else if 1/2 < f then n + 1
  else if Even n then n else n + 1

/-- Model of Python `round(x, 2)`: round to the nearest multiple of 1/100,
ties to even (exact-arithmetic idealization of CPython's float rounding). -/
def round2 (x : ℚ) : ℚ := (rhe (x * 100) : ℚ) / 100

theorem rhe_intCast (n : ℤ) : rhe (n : ℚ) = n := by
  unfold rhe
  simp [Int.floor_intCast]

theorem round2_of_cents (m : ℤ) : round2 ((m : ℚ) / 100) = (m : ℚ) / 100 := by
  unfold round2
  have h : ((m : ℚ) / 100) * 100 = (m : ℚ) := by ring
  rw [h, rhe_intCast]

theorem round2_cents (x : ℚ) : ∃ m : ℤ, round2 x = (m : ℚ) / 100 :=
  ⟨rhe (x * 100), rfl⟩

theorem round2_idem (x : ℚ) : round2 (round2 x) = round2 x := by
  obtain ⟨m, hm⟩ := round2_cents x
  rw [hm, round2_of_cents]

theorem round2_add_cents (x y : ℚ) (hx : round2 x = x) (hy : round2 y = y) :
    round2 (x + y) = x + y := by
  obtain ⟨m, hm⟩ := round2_cents x
  obtain ⟨n, hn⟩ := round2_cents y
  rw [hx] at hm
  rw [hy] at hn
  rw [hm, hn]
  have h : (m : ℚ) / 100 + (n : ℚ) / 100 = ((m + n : ℤ) : ℚ) / 100 := by
    push_cast
    ring
  rw [h, round2_of_cents]

/-- Python runtime values that flow through the analysis dictionaries. -/
inductive PyVal : Type where
  | none : PyVal
  | bool (b : Bool) : PyVal
  | int (n : ℤ) : PyVal
  | float (q : ℚ) : PyVal
  | str (s : String) : PyVal
  | list (xs : List PyVal) : PyVal
  | dict (kvs : List (String × PyVal)) : PyVal

/-- `d.get(k)` on a Python dict: first (unique) binding of the key. -/
def dictGet (kvs : List (String × PyVal)) (k : String) : Option PyVal :=
  match kvs with
  | [] => Option.none
  | (k', v) :: t => if k' = k then some v else dictGet t k

/-- `d[k] = v` on a Python dict: replace the binding in place, or append a
new binding at the end (Python dicts preserve insertion order). -/
def dictSet (kvs : List (String × PyVal)) (k : String) (v : PyVal) :
    List (String × PyVal) :=
  match kvs with
  | [] => [(k, v)]
  | (k', v') :: t => if k' = k then (k, v) :: t else (k', v') :: dictSet t k v

theorem dictGet_dictSet_self (kvs : List (String × PyVal)) (k : String) (v : PyVal) :
    dictGet (dictSet kvs k v) k = some v := by
  induction kvs with
  | nil => simp [dictSet, dictGet]
  | cons hd t ih =>
    obtain ⟨k1, v1⟩ := hd
    by_cases h : k1 = k
    · simp [dictSet, dictGet, h]
    · simp [dictSet, dictGet, h, ih]

theorem dictSet_same (kvs : List (String × PyVal)) (k : String) (v : PyVal)
    (h : dictGet kvs k = some v) : dictSet kvs k v = kvs := by
  induction kvs with
  | nil => simp [dictGet] at h
  | cons hd t ih =>
    obtain ⟨k1, v1⟩ := hd
    by_cases hk : k1 = k
    · unfold dictGet at h
      simp only [hk, if_pos] at h
      unfold dictSet
      simp only [hk, if_pos]
      simp at h
      rw [h]
    · unfold dictGet at h
      rw [if_neg hk] at h
      unfold dictSet
      rw [if_neg hk, ih h]

theorem dictGet_dictSet_other (kvs : List (String × PyVal)) (k k' : String)
    (v : PyVal) (h : k ≠ k') : dictGet (dictSet kvs k v) k' = dictGet kvs k' := by
  induction kvs with
  | nil => simp [dictSet, dictGet, h]
  | cons hd t ih =>
    obtain ⟨k1, v1⟩ := hd
    by_cases hk : k1 = k
    · subst hk
      simp [dictSet, dictGet, h, Ne.symm h]
    · by_cases hk' : k1 = k'
      · subst hk'
        simp [dictSet, dictGet, hk]
      · simp [dictSet, dictGet, hk, hk', ih]

/-- Python truthiness test (`bool(v)` is `False`). -/
def pyFalsy : PyVal → Bool
  | .none => true
  | .bool b => !b
  | .int n => n = 0
  | .float q => q = 0
  | .str s => s = ""
  | .list xs => xs.isEmpty
  | .dict kvs => kvs.isEmpty

/-- Parse a plain decimal literal, model of `float(s)` on the string forms
that occur in this pipeline (optional sign, digits, optional fraction;
exponents and the non-finite literals are out of the model). -/
def parseDecimal (s : String) : Except Unit ℚ :=
  let cs := s.trim.toList
  let (sgn, cs) : ℚ × List Char :=
    match cs with
    | '-' :: t => (-1, t)
    | '+' :: t => (1, t)
    | t => (1, t)
  let intPart := cs.takeWhile Char.isDigit
  let rest := cs.dropWhile Char.isDigit
  if intPart.isEmpty then .error ()
  else
    let iv : ℤ := intPart.foldl (fun a c => a * 10 + (c.toNat - 48 : ℤ)) 0
    match rest with
    | [] => .ok (sgn * iv)
    | '.' :: frac =>
      if frac.isEmpty ∨ ¬ frac.all Char.isDigit then .error ()
      else
        let fv : ℤ := frac.foldl (fun a c => a * 10 + (c.toNat - 48 : ℤ)) 0
        .ok (sgn * ((iv : ℚ) + (fv : ℚ) / (10 ^ frac.length : ℚ)))
    | _ => .error ()

/-- Model of Python `float(v)`: numeric coercion, raising on values that
have no numeric interpretation. -/
def pyFloat : PyVal → Except Unit ℚ
  | .int n => .ok (n : ℚ)
  | .float q => .ok q
  | .bool b => .ok (if b then 1 else 0)
  | .str s => parseDecimal s
  | _ => .error ()

/-! ## Model of `json.loads`

A recursive-descent parser for the JSON dialect accepted by Python's
`json.loads` with default options: strict strings (unescaped control
characters rejected), no trailing commas, leading-zero-free numbers,
duplicate object keys resolved last-value-wins.  Lone surrogate escapes
and the non-finite literals (`NaN`, `Infinity`) are outside the model.
Recursion is bounded by an explicit fuel, always called with enough fuel
for the input length. -/

/-- Left brace character (written by code point throughout). -/
def braceL : Char := Char.ofNat 123

/-- Right brace character. -/
def braceR : Char := Char.ofNat 125

/-- JSON whitespace accepted by Python's `json` module between tokens. -/
def isJsonWs (c : Char) : Bool := c = ' ' || c = '\t' || c = '\n' || c = '\r'

/-- Whitespace stripped by Python's `str.strip()` (ASCII portion). -/
def isPyWs (c : Char) : Bool :=
  c = ' ' || c = '\t' || c = '\n' || c = '\r' || c = Char.ofNat 11 || c = Char.ofNat 12

def skipWs (cs : List Char) : List Char := cs.dropWhile isJsonWs

/-- Model of Python `str.strip()` on a character list. -/
def pyStrip (cs : List Char) : List Char :=
  ((cs.dropWhile isPyWs).reverse.dropWhile isPyWs).reverse

def hexDigitVal (c : Char) : Option ℕ :=
  if '0' ≤ c ∧ c ≤ '9' then some (c.toNat - 48)
  else if 'a' ≤ c ∧ c ≤ 'f' then some (c.toNat - 87)
  else if 'A' ≤ c ∧ c ≤ 'F' then some (c.toNat - 55)
  else Option.none

def hex4 : List Char → Option (ℕ × List Char)
  | a :: b :: c :: d :: rest =>
    match hexDigitVal a, hexDigitVal b, hexDigitVal c, hexDigitVal d with
    | some x, some y, some z, some w => some (((x * 16 + y) * 16 + z) * 16 + w, rest)
    | _, _, _, _ => Option.none
  | _ => Option.none

/-- Parse the body of a JSON string (after the opening quote), mirroring
`json.loads` strict mode.  Accumulates characters in reverse. -/
def parseStrBody : ℕ → List Char → List Char → Option (String × List Char)
  | 0, _, _ => Option.none
  | _ + 1, [], _ => Option.none
  | fuel + 1, c :: rest, acc =>
    if c = '"' then some (String.mk acc.reverse, rest)
    else if c = '\\' then
      match rest with
      | [] => Option.none
      | e :: rest1 =>
        if e = '"' then parseStrBody fuel rest1 ('"' :: acc)
        else if e = '\\' then parseStrBody fuel rest1 ('\\' :: acc)
        else if e = '/' then parseStrBody fuel rest1 ('/' :: acc)
        else if e = 'b' then parseStrBody fuel rest1 (Char.ofNat 8 :: acc)
        else if e = 'f' then parseStrBody fuel rest1 (Char.ofNat 12 :: acc)
        else if e = 'n' then parseStrBody fuel rest1 ('\n' :: acc)
        else if e = 'r' then parseStrBody fuel rest1 ('\r' :: acc)
        else if e = 't' then parseStrBody fuel rest1 ('\t' :: acc)
        else if e = 'u' then
          match hex4 rest1 with
          | some (n, rest2) =>
            if 0xD800 ≤ n ∧ n ≤ 0xDBFF then
              match rest2 with
              | '\\' :: 'u' :: rest3 =>
                match hex4 rest3 with
                | some (m, rest4) =>
                  if 0xDC00 ≤ m ∧ m ≤ 0xDFFF then
                    parseStrBody fuel rest4
                      (Char.ofNat (0x10000 + (n - 0xD800) * 0x400 + (m - 0xDC00)) :: acc)
                  else Option.none
                | Option.none => Option.none
              | _ => Option.none
            else if 0xDC00 ≤ n ∧ n ≤ 0xDFFF then Option.none
            else parseStrBody fuel rest2 (Char.ofNat n :: acc)
          | Option.none => Option.none
        else Option.none
    else if c.toNat < 32 then Option.none
    else parseStrBody fuel rest (c :: acc)

def digitsVal (ds : List Char) : ℤ :=
  ds.foldl (fun a c => a * 10 + ((c.toNat : ℤ) - 48)) 0

/-- Parse a JSON number; yields `PyVal.int` when there is no fraction and
no exponent part, `PyVal.float` otherwise (value taken exactly in `ℚ`). -/
def parseNumber (cs : List Char) : Option (PyVal × List Char) :=
  let (neg, cs1) : Bool × List Char :=
    match cs with
    | '-' :: t => (true, t)
    | t => (false, t)
  let ip := cs1.takeWhile Char.isDigit
  let r1 := cs1.dropWhile Char.isDigit
  if ip.isEmpty then Option.none
  else if 1 < ip.length ∧ ip.head? = some '0' then Option.none
  else
    let ival : ℤ := digitsVal ip
    let fracPart : Option (List Char × List Char) :=
      match r1 with
      | '.' :: f =>
        let fd := f.takeWhile Char.isDigit
        if fd.isEmpty then Option.none else some (fd, f.dropWhile Char.isDigit)
      | _ => some ([], r1)
    match fracPart with
    | Option.none => Option.none
    | some (fd, r2) =>
      if r1 ≠ r2 ∧ fd.isEmpty then Option.none
      else
        let expPart : Option (ℤ × List Char) :=
          match r2 with
          | e :: t =>
            if e = 'e' ∨ e = 'E' then
              let (esgn, t1) : ℤ × List Char :=
                match t with
                | '+' :: u => (1, u)
                | '-' :: u => (-1, u)
                | u => (1, u)
              let ed := t1.takeWhile Char.isDigit
              if ed.isEmpty then Option.none
              else some (esgn * digitsVal ed, t1.dropWhile Char.isDigit)
            else some (0, r2)
          | [] => some (0, r2)
        match expPart with
        | Option.none => Option.none
        | some (ex, r3) =>
          if fd.isEmpty ∧ r2 = r3 then
            some (.int (if neg then -ival else ival), r3)
          else
            let mag : ℚ := ((ival : ℚ) + (digitsVal fd : ℚ) / (10 ^ fd.length : ℚ)) *
              (10 : ℚ) ^ ex
            some (.float (if neg then -mag else mag), r3)

mutual

def parseValue : ℕ → List Char → Option (PyVal × List Char)
  | 0, _ => Option.none
  | fuel + 1, cs =>
    match cs with
    | [] => Option.none
    | 't' :: 'r' :: 'u' :: 'e' :: rest => some (.bool true, rest)
    | 'f' :: 'a' :: 'l' :: 's' :: 'e' :: rest => some (.bool false, rest)
    | 'n' :: 'u' :: 'l' :: 'l' :: rest => some (.none, rest)
    | '"' :: rest =>
      match parseStrBody (rest.length + 1) rest [] with
      | some (s, r) => some (.str s, r)
      | Option.none => Option.none
    | c :: rest =>
      if c = braceL then
        match skipWs rest with
        | [] => Option.none
        | d :: rest1 =>
          if d = braceR then some (.dict [], rest1)
          else parseMembers fuel [] (d :: rest1)
      else if c = '[' then
        match skipWs rest with
        | ']' :: rest1 => some (.list [], rest1)
        | cs1 => parseElems fuel [] cs1
      else parseNumber cs

def parseMembers : ℕ → List (String × PyVal) → List Char → Option (PyVal × List Char)
  | 0, _, _ => Option.none
  | fuel + 1, acc, cs =>
    match cs with
    | '"' :: rest =>
      match parseStrBody (rest.length + 1) rest [] with
      | some (k, rest1) =>
        match skipWs rest1 with
        | ':' :: rest2 =>
          match parseValue fuel (skipWs rest2) with
          | some (v, rest3) =>
            match skipWs rest3 with
            | ',' :: rest4 => parseMembers fuel (dictSet acc k v) (skipWs rest4)
            | d :: rest4 =>
              if d = braceR then some (.dict (dictSet acc k v), rest4) else Option.none
            | [] => Option.none
          | Option.none => Option.none
        | _ => Option.none
      | Option.none => Option.none
    | _ => Option.none

def parseElems : ℕ → List PyVal → List Char → Option (PyVal × List Char)
  | 0, _, _ => Option.none
  | fuel + 1, acc, cs =>
    match parseValue fuel cs with
    | some (v, rest) =>
      match skipWs rest with
      | ',' :: rest1 => parseElems fuel (v :: acc) (skipWs rest1)
      | ']' :: rest1 => some (.list (v :: acc).reverse, rest1)
      | _ => Option.none
    | Option.none => Option.none

end

/-- Model of `json.loads` on a character list: parse a single value
surrounded by optional whitespace, rejecting trailing garbage. -/
def pyLoadsL (cs : List Char) : Option PyVal :=
  match parseValue (3 * cs.length + 9) (skipWs cs) with
  | some (v, rest) => if (skipWs rest).isEmpty then some v else Option.none
  | Option.none => Option.none

/-- Model of `json.loads` on a string. -/
def pyLoads (s : String) : Option PyVal := pyLoadsL s.toList

/-! ## Canonical serialization (model of `json.dumps(payload, sort_keys=True,
separators=(",", ":"), ensure_ascii=True)`)

All floats reaching the fingerprint payload have been rounded to two
decimals by `_stable_df_records` / `_compute_input_hash`, so serialized
floats are represented by their value in cents; `centsRepr` mirrors
CPython's shortest `repr` on such values (e.g. `450.0`, `12.3`, `12.04`). -/

/-- Serialization values appearing in the fingerprint payload. -/
inductive JVal : Type where
  | null : JVal
  | jint (n : ℤ) : JVal
  | jfloat (cents : ℤ) : JVal
  | jstr (s : String) : JVal
  | jarr (xs : List JVal) : JVal
  | jobj (kvs : List (String × JVal)) : JVal

/-- Python `repr` of the float `cents / 100` (shortest form). -/
def centsRepr (cents : ℤ) : String :=
  let sign := if cents < 0 then "-" else ""
  let a := cents.natAbs
  let ip := a / 100
  let fr := a % 100
  if fr = 0 then sign ++ toString ip ++ ".0"
  else if fr % 10 = 0 then sign ++ toString ip ++ "." ++ toString (fr / 10)
  else sign ++ toString ip ++ "." ++ (if fr < 10 then "0" else "") ++ toString fr

def hexDigitChar (n : ℕ) : Char :=
  if n < 10 then Char.ofNat (48 + n) else Char.ofNat (87 + n)

/-- Four lowercase hex digits. -/
def hex4Str (n : ℕ) : String :=
  String.mk [hexDigitChar (n / 4096 % 16), hexDigitChar (n / 256 % 16),
    hexDigitChar (n / 16 % 16), hexDigitChar (n % 16)]

/-- `ensure_ascii` escaping of one character, as in Python's `json.dumps`. -/
def escChar (c : Char) : String :=
  if c = '"' then "\\\""
  else if c = '\\' then "\\\\"
  else if c = '\n' then "\\n"
  else if c = '\t' then "\\t"
  else if c = '\r' then "\\r"
  else if c = Char.ofNat 8 then "\\b"
  else if c = Char.ofNat 12 then "\\f"
  else if 32 ≤ c.toNat ∧ c.toNat ≤ 126 then String.singleton c
  else if c.toNat < 65536 then "\\u" ++ hex4Str c.toNat
  else
    let v := c.toNat - 65536
    "\\u" ++ hex4Str (55296 + v / 1024) ++ "\\u" ++ hex4Str (56320 + v % 1024)

def escString (s : String) : String :=
  "\"" ++ String.join (s.toList.map escChar) ++ "\""

/-- Insertion into a list sorted by the boolean relation `le`. -/
def insertBy {α : Type} (le : α → α → Bool) (a : α) : List α → List α
  | [] => [a]
  | b :: t => if le a b then a :: b :: t else b :: insertBy le a t

/-- Stable insertion sort by the boolean relation `le`. -/
def sortBy {α : Type} (le : α → α → Bool) (l : List α) : List α :=
  l.foldr (insertBy le) []

/-- `sort_keys=True`: object keys ordered by code-point string comparison. -/
def keyLe (a b : String × JVal) : Bool := a.1 ≤ b.1

mutual

/-- Recursively order every object's keys (the `sort_keys=True` part). -/
def sortKeysJ : JVal → JVal
  | .jobj kvs => .jobj (sortBy keyLe (sortKeysKvs kvs))
  | .jarr xs => .jarr (sortKeysList xs)
  | v => v

def sortKeysList : List JVal → List JVal
  | [] => []
  | x :: t => sortKeysJ x :: sortKeysList t

def sortKeysKvs : List (String × JVal) → List (String × JVal)
  | [] => []
  | (k, v) :: t => (k, sortKeysJ v) :: sortKeysKvs t

end

mutual

/-- Serialization with compact separators and ASCII escaping (objects are
emitted in list order; key sorting is done by `sortKeysJ`). -/
def dumpJ : JVal → String
  | .null => "null"
  | .jint n => toString n
  | .jfloat cents => centsRepr cents
  | .jstr s => escString s
  | .jarr xs => "[" ++ dumpJList xs ++ "]"
  | .jobj kvs => String.singleton braceL ++ dumpJMembers kvs ++ String.singleton braceR

def dumpJList : List JVal → String
  | [] => ""
  | [x] => dumpJ x
  | x :: y :: t => dumpJ x ++ "," ++ dumpJList (y :: t)

def dumpJMembers : List (String × JVal) → String
  | [] => ""
  | [(k, v)] => escString k ++ ":" ++ dumpJ v
  | (k, v) :: y :: t => escString k ++ ":" ++ dumpJ v ++ "," ++ dumpJMembers (y :: t)

end

/-- `json.dumps(v, sort_keys=True, separators=(",", ":"), ensure_ascii=True)`. -/
def dumpsCanonical (v : JVal) : String := dumpJ (sortKeysJ v)

/-! ## SHA-256 (FIPS 180-4), over byte lists, words as naturals mod 2^32 -/

def w32 (x : ℕ) : ℕ := x % 4294967296

def rotr32 (n x : ℕ) : ℕ := w32 ((x >>> n) ||| (x <<< (32 - n)))

def shaCh (x y z : ℕ) : ℕ := (x &&& y) ^^^ ((x ^^^ 4294967295) &&& z)

def shaMaj (x y z : ℕ) : ℕ := (x &&& y) ^^^ (x &&& z) ^^^ (y &&& z)

def bSig0 (x : ℕ) : ℕ := rotr32 2 x ^^^ rotr32 13 x ^^^ rotr32 22 x

def bSig1 (x : ℕ) : ℕ := rotr32 6 x ^^^ rotr32 11 x ^^^ rotr32 25 x

def sSig0 (x : ℕ) : ℕ := rotr32 7 x ^^^ rotr32 18 x ^^^ (x >>> 3)

def sSig1 (x : ℕ) : ℕ := rotr32 17 x ^^^ rotr32 19 x ^^^ (x >>> 10)

def shaK : List ℕ :=
  [1116352408, 1899447441, 3049323471, 3921009573, 961987163,
   1508970993, 2453635748, 2870763221, 3624381080, 310598401,
   607225278, 1426881987, 1925078388, 2162078206, 2614888103,
   3248222580, 3835390401, 4022224774, 264347078, 604807628,
   770255983, 1249150122, 1555081692, 1996064986, 2554220882,
   2821834349, 2952996808, 3210313671, 3336571891, 3584528711,
   113926993, 338241895, 666307205, 773529912, 1294757372,
   1396182291, 1695183700, 1986661051, 2177026350, 2456956037,
   2730485921, 2820302411, 3259730800, 3345764771, 3516065817,
   3600352804, 4094571909, 275423344, 430227734, 506948616,
   659060556, 883997877, 958139571, 1322822218, 1537002063,
   1747873779, 1955562222, 2024104815, 2227730452, 2361852424,
   2428436474, 2756734187, 3204031479, 3329325298]

def shaH0 : List ℕ :=
  [1779033703, 3144134277, 1013904242, 2773480762,
   1359893119, 2600822924, 528734635, 1541459225]

/-- Big-endian bytes of a 64-bit length field. -/
def be64 (n : ℕ) : List ℕ :=
  [n >>> 56 % 256, n >>> 48 % 256, n >>> 40 % 256, n >>> 32 % 256,
   n >>> 24 % 256, n >>> 16 % 256, n >>> 8 % 256, n % 256]

/-- SHA-256 message padding. -/
def shaPad (msg : List ℕ) : List ℕ :=
  let L := msg.length
  let z := (119 - (L % 64)) % 64
  msg ++ [128] ++ List.replicate z 0 ++ be64 (8 * L)

/-- Group bytes into big-endian 32-bit words. -/
def bytesToWords : List ℕ → List ℕ
  | a :: b :: c :: d :: rest => (((a * 256 + b) * 256 + c) * 256 + d) :: bytesToWords rest
  | _ => []

/-- Message-schedule expansion of a 16-word block to 64 words. -/
def extendW (ws : Array ℕ) : Array ℕ :=
  (List.range 48).foldl
    (fun arr i =>
      arr.push (w32 (sSig1 (arr.getD (i + 14) 0) + arr.getD (i + 9) 0 +
        sSig0 (arr.getD (i + 1) 0) + arr.getD i 0)))
    ws

structure ShaState : Type where
  a : ℕ
  b : ℕ
  c : ℕ
  d : ℕ
  e : ℕ
  f : ℕ
  g : ℕ
  h : ℕ

def shaRound (st : ShaState) (kw : ℕ × ℕ) : ShaState :=
  let t1 := w32 (st.h + bSig1 st.e + shaCh st.e st.f st.g + kw.1 + kw.2)
  let t2 := w32 (bSig0 st.a + shaMaj st.a st.b st.c)
  ⟨w32 (t1 + t2), st.a, st.b, st.c, w32 (st.d + t1), st.e, st.f, st.g⟩

/-- One SHA-256 compression step over a 64-byte chunk. -/
def compressBlock (h : List ℕ) (chunk : List ℕ) : List ℕ :=
  let ws := (extendW (bytesToWords chunk).toArray).toList
  match h with
  | [h0, h1, h2, h3, h4, h5, h6, h7] =>
    let st := (shaK.zip ws).foldl (fun s kw => shaRound s ⟨kw.1, kw.2⟩)
      ⟨h0, h1, h2, h3, h4, h5, h6, h7⟩
    [w32 (h0 + st.a), w32 (h1 + st.b), w32 (h2 + st.c), w32 (h3 + st.d),
     w32 (h4 + st.e), w32 (h5 + st.f), w32 (h6 + st.g), w32 (h7 + st.h)]
  | _ => h

/-- Split into 64-byte chunks (structurally, by fuel on the byte count). -/
def chunks64 : ℕ → List ℕ → List (List ℕ)
  | 0, _ => []
  | _, [] => []
  | fuel + 1, bs => bs.take 64 :: chunks64 fuel (bs.drop 64)

def wordToBytes (w : ℕ) : List ℕ := [w >>> 24 % 256, w >>> 16 % 256, w >>> 8 % 256, w % 256]

/-- SHA-256 digest (32 bytes) of a byte list. -/
def sha256Bytes (msg : List ℕ) : List ℕ :=
  let padded := shaPad msg
  let hs := (chunks64 padded.length padded).foldl compressBlock shaH0
  hs.flatMap wordToBytes

def hexByte (b : ℕ) : String :=
  String.mk [hexDigitChar (b / 16 % 16), hexDigitChar (b % 16)]

/-- `hashlib.sha256(bytes).hexdigest()`. -/
def sha256Hex (msg : List ℕ) : String :=
  String.join ((sha256Bytes msg).map hexByte)

/-- UTF-8 encoding of a string that is pure ASCII (the canonical payload is
ASCII by `ensure_ascii=True`). -/
def asciiBytes (s : String) : List ℕ := s.toList.map Char.toNat

/-! ## Deterministic input hashing
(`_stable_df_records` and `_compute_input_hash`) -/

/-- A dataframe cell as seen by `_stable_df_records` (`None`/`NaN`, int,
float, or anything else — which Python stringifies). -/
inductive Cell : Type where
  | null : Cell
  | cint (n : ℤ) : Cell
  | cfloat (q : ℚ) : Cell
  | cstr (s : String) : Cell

/-- A dataframe row: named cells.  `rowGet` models `row.get(c)` (missing
column → `None`). -/
def DRow : Type := List (String × Cell)

def rowGet (r : DRow) (c : String) : Cell :=
  match r.find? (fun p => p.1 = c) with
  | some p => p.2
  | Option.none => .null

/-- `str.strip()` of a string. -/
def strPyStrip (s : String) : String := String.mk (pyStrip s.toList)

/-- Cents of `round(q, 2)`. -/
def centsOf (q : ℚ) : ℤ := rhe (q * 100)

/-- One record entry of `_stable_df_records`: `None` for missing values,
ints kept, floats rounded to cents, anything else stringified + stripped. -/
def stableCell : Cell → JVal
  | .null => .null
  | .cint n => .jint n
  | .cfloat q => .jfloat (centsOf q)
  | .cstr s => .jstr (strPyStrip s)

/-- `_stable_df_records(df, cols, max_rows)`: stable list of dict records —
rows capped at `max_rows`, each record keyed by `cols` in order (returns
`[]` for an empty frame). -/
def stableRecords (df : List DRow) (cols : List String) (maxRows : ℕ) : List JVal :=
  (df.take maxRows).map (fun r => .jobj (cols.map (fun c => (c, stableCell (rowGet r c)))))

/-- Aggregate metadata over all included expense records. -/
structure AggMeta : Type where
  grand_total : ℚ
  project_count : ℤ
  earliest_date : Option String
  latest_date : Option String
  deriving DecidableEq, Repr

/-- The `"meta"` object of the fingerprint payload. -/
def metaCanon (m : AggMeta) : JVal :=
  .jobj [("grand_total", .jfloat (centsOf m.grand_total)),
         ("project_count", .jint m.project_count),
         ("earliest_date", match m.earliest_date with
            | some d => .jstr d
            | Option.none => .null),
         ("latest_date", match m.latest_date with
            | some d => .jstr d
            | Option.none => .null)]

def vendorHashCols : List String := ["VENDOR", "total_spend", "transaction_count", "avg_transaction"]

def catHashCols : List String := ["CATEGORY", "total_spend", "transaction_count"]

def hfHashCols : List String := ["VENDOR", "transaction_count", "total_spend"]

/-- The JSON payload serialized by `_compute_input_hash`. -/
def hashPayload (vendors cats hf : List DRow) (meta : AggMeta) : JVal :=
  .jobj [("meta", metaCanon meta),
         ("vendors", .jarr (stableRecords vendors vendorHashCols 50)),
         ("categories", .jarr (stableRecords cats catHashCols 50)),
         ("high_freq", .jarr (stableRecords hf hfHashCols 50))]

/-- `_compute_input_hash`: deterministic SHA-256 hex digest of the
canonically serialized summarized inputs. -/
def computeInputHash (vendors cats hf : List DRow) (meta : AggMeta) : String :=
  sha256Hex (asciiBytes (dumpsCanonical (hashPayload vendors cats hf meta)))

/-! ## Spend aggregation (`_gather_vendor_data`)

Pandas `groupby(..., dropna=False, sort=True)` is modelled by grouping on
the distinct keys sorted ascending (missing key last), and
`sort_values(..., ascending=False)` by a stable sort on the aggregate
column (pandas' tie order is an implementation detail not relied upon).
The SQL filter plus `pd.to_numeric(...).fillna(0)` guarantee numeric
amounts, so `amount` is carried as `ℚ` directly. -/

/-- One row fetched from the `EXPENSES` table (aliases applied). -/
structure ExpenseRow : Type where
  vendor : Option String
  category : Option String
  amount : ℚ
  project_id : String
  date : Option String
  deriving DecidableEq, Repr

structure VendorAgg : Type where
  vendor : Option String
  total_spend : ℚ
  transaction_count : ℕ
  avg_transaction : ℚ
  deriving DecidableEq, Repr

structure CatAgg : Type where
  category : Option String
  total_spend : ℚ
  transaction_count : ℕ
  deriving DecidableEq, Repr

structure HFAgg : Type where
  vendor : Option String
  transaction_count : ℕ
  total_spend : ℚ
  deriving DecidableEq, Repr

/-- Groupby key order: present keys ascending, the missing-value group last. -/
def optKeyLe (a b : Option String) : Bool :=
  match a, b with
  | Option.none, Option.none => true
  | Option.none, some _ => false
  | some _, Option.none => true
  | some x, some y => x ≤ y

/-- Distinct group keys in groupby order. -/
def groupKeys (keys : List (Option String)) : List (Option String) :=
  sortBy optKeyLe keys.dedup

def sumAmounts (rows : List ExpenseRow) : ℚ := (rows.map (·.amount)).sum

/-- `df.groupby("VENDOR", dropna=False).agg(total_spend=sum,
transaction_count=count, avg_transaction=mean)`. -/
def vendorGroups (rows : List ExpenseRow) : List VendorAgg :=
  (groupKeys (rows.map (·.vendor))).map (fun k =>
    let sub := rows.filter (fun r => r.vendor = k)
    ⟨k, sumAmounts sub, sub.length, sumAmounts sub / sub.length⟩)

def catGroups (rows : List ExpenseRow) : List CatAgg :=
  (groupKeys (rows.map (·.category))).map (fun k =>
    let sub := rows.filter (fun r => r.category = k)
    ⟨k, sumAmounts sub, sub.length⟩)

def hfGroups (rows : List ExpenseRow) : List HFAgg :=
  (groupKeys (rows.map (·.vendor))).map (fun k =>
    let sub := rows.filter (fun r => r.vendor = k)
    ⟨k, sub.length, sumAmounts sub⟩)

def spendDescV (a b : VendorAgg) : Bool := b.total_spend ≤ a.total_spend

def spendDescC (a b : CatAgg) : Bool := b.total_spend ≤ a.total_spend

def countDescHF (a b : HFAgg) : Bool := b.transaction_count ≤ a.transaction_count

/-- `df_vendors`: vendor aggregates sorted by total spend descending. -/
def gatherVendors (rows : List ExpenseRow) : List VendorAgg :=
  sortBy spendDescV (vendorGroups rows)

/-- `df_categories`: category aggregates sorted by total spend descending. -/
def gatherCategories (rows : List ExpenseRow) : List CatAgg :=
  sortBy spendDescC (catGroups rows)

/-- `df_high_freq`: per-vendor (count, spend) sorted by transaction count
descending.  Note: the source applies no minimum-count filter. -/
def gatherHighFreq (rows : List ExpenseRow) : List HFAgg :=
  sortBy countDescHF (hfGroups rows)

/-- The `meta` dict (on an empty record set this agrees with the source's
explicit zero-valued early return). -/
def gatherMeta (rows : List ExpenseRow) : AggMeta where
  grand_total := sumAmounts rows
  project_count := (rows.map (·.project_id)).dedup.length
  earliest_date := (rows.filterMap (·.date)).foldl
    (fun acc d => match acc with
      | Option.none => some d
      | some a => some (if d < a then d else a)) Option.none
  latest_date := (rows.filterMap (·.date)).foldl
    (fun acc d => match acc with
      | Option.none => some d
      | some a => some (if a < d then d else a)) Option.none

/-- `_gather_vendor_data` (after the cursor fetch): the four summaries in
the order returned by the source. -/
def gatherVendorData (rows : List ExpenseRow) :
    List VendorAgg × List CatAgg × AggMeta × List HFAgg :=
  (gatherVendors rows, gatherCategories rows, gatherMeta rows, gatherHighFreq rows)

/-- Dataframe-row view of a vendor aggregate (for hashing and prompting). -/
def vendorAggRow (v : VendorAgg) : DRow :=
  [("VENDOR", match v.vendor with
      | some s => .cstr s
      | Option.none => .null),
   ("total_spend", .cfloat v.total_spend),
   ("transaction_count", .cint v.transaction_count),
   ("avg_transaction", .cfloat v.avg_transaction)]

def catAggRow (c : CatAgg) : DRow :=
  [("CATEGORY", match c.category with
      | some s => .cstr s
      | Option.none => .null),
   ("total_spend", .cfloat c.total_spend),
   ("transaction_count", .cint c.transaction_count)]

def hfAggRow (h : HFAgg) : DRow :=
  [("VENDOR", match h.vendor with
      | some s => .cstr s
      | Option.none => .null),
   ("transaction_count", .cint h.transaction_count),
   ("total_spend", .cfloat h.total_spend)]

/-! ## JSON repair layer
(`_strip_code_fences`, `_extract_first_valid_json_object`, `_repair_json`) -/

/-- Left-to-right single-pass substitution: at each position, `m` either
matches (returning the text to emit and the remainder after the whole
match, which is not rescanned — as with `re.sub`) or the character is kept.
Fuel is the input length (every step consumes at least one character). -/
def scanReplace (m : List Char → Option (List Char × List Char)) :
    ℕ → List Char → List Char
  | 0, cs => cs
  | _ + 1, [] => []
  | fuel + 1, c :: rest =>
    match m (c :: rest) with
    | some (emit, rest') => emit ++ scanReplace m fuel rest'
    | Option.none => c :: scanReplace m fuel rest

def isBacktick (c : Char) : Bool := c.toNat = 96

/-- Case-insensitive match of a character against a lowercase letter. -/
def ciIs (c : Char) (lower : Char) : Bool :=
  c = lower || c.toNat + 32 = lower.toNat

/-- Matcher for `re.sub(r"```json\s*", "", ..., flags=re.IGNORECASE)`. -/
def matchFenceJson (cs : List Char) : Option (List Char × List Char) :=
  match cs with
  | x1 :: x2 :: x3 :: x4 :: x5 :: x6 :: x7 :: rest =>
    if isBacktick x1 && isBacktick x2 && isBacktick x3 &&
       ciIs x4 'j' && ciIs x5 's' && ciIs x6 'o' && ciIs x7 'n'
    then some ([], rest.dropWhile isPyWs)
    else Option.none
  | _ => Option.none

/-- Matcher for `re.sub(r"```\s*", "", ...)`. -/
def matchFencePlain (cs : List Char) : Option (List Char × List Char) :=
  match cs with
  | x1 :: x2 :: x3 :: rest =>
    if isBacktick x1 && isBacktick x2 && isBacktick x3
    then some ([], rest.dropWhile isPyWs)
    else Option.none
  | _ => Option.none

/-- `_strip_code_fences(text)`. -/
def stripCodeFences (cs : List Char) : List Char :=
  let a := scanReplace matchFenceJson cs.length cs
  let b := scanReplace matchFencePlain a.length a
  pyStrip b

/-- The character-level pass of `_repair_json` that escapes literal
newlines inside quoted strings, tracking quote/escape state. -/
def escNlStep (st : Bool × Bool × List Char) (ch : Char) : Bool × Bool × List Char :=
  let inStr := st.1
  let esc := st.2.1
  let out := st.2.2
  if inStr then
    if esc then (true, false, ch :: out)
    else if ch = '\\' then (true, true, ch :: out)
    else if ch = '"' then (false, false, ch :: out)
    else if ch = '\n' then (true, false, 'n' :: '\\' :: out)
    else (true, false, ch :: out)
  else if ch = '"' then (true, esc, ch :: out)
  else (false, esc, ch :: out)

def escapeNewlinesInStrings (cs : List Char) : List Char :=
  ((cs.foldl escNlStep (false, false, [])).2.2).reverse

/-- Matcher for `re.sub(r",\s*}", "}", ...)`. -/
def matchCommaBrace (cs : List Char) : Option (List Char × List Char) :=
  match cs with
  | c :: rest =>
    if c = ',' then
      match rest.dropWhile isPyWs with
      | d :: rest2 => if d = braceR then some ([braceR], rest2) else Option.none
      | [] => Option.none
    else Option.none
  | [] => Option.none

/-- Matcher for `re.sub(r",\s*]", "]", ...)`. -/
def matchCommaBracket (cs : List Char) : Option (List Char × List Char) :=
  match cs with
  | c :: rest =>
    if c = ',' then
      match rest.dropWhile isPyWs with
      | d :: rest2 => if d = ']' then some ([']'], rest2) else Option.none
      | [] => Option.none
    else Option.none
  | [] => Option.none

/-- `_repair_json(json_text)`. -/
def repairJson (cs : List Char) : List Char :=
  let a := escapeNewlinesInStrings cs
  let b := scanReplace matchCommaBrace a.length a
  scanReplace matchCommaBracket b.length b

/-- `_extract_first_valid_json_object(text)`: strip, try a direct parse;
otherwise scan candidate start positions (each `{`, left to right) and for
each try end positions from the end of the text backward, returning the
first brace-terminated slice that parses to a dict. -/
def extractFirstL (text : List Char) : Option (List (String × PyVal)) :=
  let t := pyStrip text
  match pyLoadsL t with
  | some (.dict kvs) => some kvs
  | _ =>
    let n := t.length
    let starts := (List.range n).filter (fun i => t.getD i ' ' = braceL)
    starts.findSome? (fun s =>
      ((List.range (n - s)).map (fun i => n - i)).findSome? (fun e =>
        let chunk := (t.drop s).take (e - s)
        if chunk.getLast? = some braceR then
          match pyLoadsL chunk with
          | some (.dict kvs) => some kvs
          | _ => Option.none
        else Option.none))

/-- The post-response JSON recovery sequence of `_run_claude_json`:
strip code fences, extract, and if that fails repair then re-extract. -/
def claudeJsonSeq (text : List Char) : Option (List (String × PyVal)) :=
  let t := stripCodeFences text
  match extractFirstL t with
  | some kvs => some kvs
  | Option.none => extractFirstL (repairJson t)

/-! ## Totals normalizer (`_normalize_analysis_totals`)

Python mutates the opportunity dicts in place while iterating; when a
`float()` conversion raises mid-loop, the `except` handler returns the
analysis with the mutations applied so far still visible through the
aliased list.  `loopOpps` models this: `.error l` is the original list
with the successfully processed leading entries mutated. -/

/-- `float(opp.get("estimated_savings", 0) or 0)`. -/
def savingsOf (kvs : List (String × PyVal)) : Except Unit ℚ :=
  let v := (dictGet kvs "estimated_savings").getD (.int 0)
  let v := if pyFalsy v then PyVal.int 0 else v
  pyFloat v

/-- The cleaning loop over `opportunities`: rounds each dict entry's
savings in place, drops non-dict entries from the cleaned list, and sums
the rounded savings; on a conversion error, yields the partially mutated
original list. -/
def loopOpps : List PyVal → Except (List PyVal) (List PyVal × ℚ)
  | [] => .ok ([], 0)
  | o :: rest =>
    match o with
    | .dict kvs =>
      match savingsOf kvs with
      | .error _ => .error (o :: rest)
      | .ok q =>
        let o' := PyVal.dict (dictSet kvs "estimated_savings" (.float (round2 q)))
        match loopOpps rest with
        | .error rest' => .error (o' :: rest')
        | .ok (cleaned, t) => .ok (o' :: cleaned, round2 q + t)
    | _ =>
      match loopOpps rest with
      | .error rest' => .error (o :: rest')
      | .ok (cleaned, t) => .ok (cleaned, t)

/-- Python `for x in v`: iterable values (lists, strings over their
characters, dicts over their keys); `none` models the `TypeError` raised
for non-iterables. -/
def pyIterElems : PyVal → Option (List PyVal)
  | .list xs => some xs
  | .str s => some (s.toList.map (fun c => PyVal.str (String.singleton c)))
  | .dict kvs => some (kvs.map (fun p => PyVal.str p.1))
  | _ => Option.none

/-- `_normalize_analysis_totals(analysis)`. -/
def normalizeTotals (analysis : PyVal) : PyVal :=
  match analysis with
  | .dict kvs =>
    let oppsRaw := (dictGet kvs "opportunities").getD .none
    let oppsVal := if pyFalsy oppsRaw then PyVal.list [] else oppsRaw
    match pyIterElems oppsVal with
    | Option.none => analysis
    | some elems =>
      match loopOpps elems with
      | .error elems' => .dict (dictSet kvs "opportunities" (.list elems'))
      | .ok (cleaned, total) =>
        let kvs1 := dictSet kvs "opportunities" (.list cleaned)
        let t0 := (dictGet kvs1 "total_estimated_savings").getD (.float total)
        let t1 := if pyFalsy t0 then PyVal.int 0 else t0
        match pyFloat t1 with
        | .error _ => .dict kvs1
        | .ok q =>
          let kvs2 := dictSet kvs1 "total_estimated_savings" (.float (round2 q))
          if 1/100 < |round2 q - round2 total| then
            .dict (dictSet kvs2 "total_estimated_savings" (.float (round2 total)))
          else .dict kvs2
  | _ => analysis

/-! ## The analysis entry point (`analyze_vendors`)

The external world — the expense store cursor, the latest-insight query,
the two LLM providers, the insert, and the clock — is an explicit
environment; each `Except.error` models that call raising.  Side effects
are recorded as an event trace.  Streamlit messages carry the source's
literal text (for f-strings, the static prefix together with the payload). -/

inductive UiMsg : Type where
  | info (s : String) : UiMsg
  | warning (s : String) : UiMsg
  | error (s : String) : UiMsg
  deriving DecidableEq, Repr

inductive Event : Type where
  | openaiCall (temperature : ℚ) (responseFormat : String) : Event
  | claudeCall : Event
  | storeRead : Event
  | storeWrite : Event
  | ui (m : UiMsg) : Event
  deriving DecidableEq, Repr

/-- The provider-facing calls of a trace, in order. -/
def providerCalls (evs : List Event) : List Event :=
  evs.filter (fun e =>
    match e with
    | .openaiCall _ _ => true
    | .claudeCall => true
    | _ => false)

/-- Number of attempted insight-store inserts in a trace. -/
def storeWriteCount (evs : List Event) : ℕ :=
  (evs.filter (fun e =>
    match e with
    | .storeWrite => true
    | _ => false)).length

/-- Agent configuration (from `st.secrets`; the shown values are the
source's defaults). -/
structure Cfg : Type where
  openaiConfigured : Bool := true
  temperature : ℚ := 0
  topVendorsInPrompt : ℕ := 15
  topCategoriesInPrompt : ℕ := 10
  deriving DecidableEq, Repr

/-- One persisted `AGENT_INSIGHTS` row as fetched by
`get_latest_insights` (VARIANT columns arrive as dicts/strings). -/
structure InsightRow : Type where
  insight_id : String
  data : PyVal
  recommendations : PyVal
  est_savings : Option ℚ
  generated_at : ℕ

/-- The external world of one `analyze_vendors` call. -/
structure Env : Type where
  fetchRows : Except String (List ExpenseRow)
  latestRow : Except String (Option InsightRow)
  openaiText : Except String String
  claudeText : Except String String
  saveOutcome : Except String Unit
  now : ℕ

/-- `_variant_to_obj(value, expected=dict, default={})`. -/
def variantToObjDict : PyVal → List (String × PyVal)
  | .dict kvs => kvs
  | .str s =>
    match pyLoads s with
    | some (.dict kvs) => kvs
    | _ => []
  | _ => []

/-- `_variant_to_obj(value, expected=list, default=[])`. -/
def variantToObjList : PyVal → List PyVal
  | .list xs => xs
  | .str s =>
    match pyLoads s with
    | some (.list xs) => xs
    | _ => []
  | _ => []

/-- The dict returned by `get_latest_insights`. -/
structure LatestView : Type where
  insight_id : String
  generated_at : ℕ
  vendor_analysis : List (String × PyVal)
  recommendations : List PyVal
  estimated_savings : ℚ
  opportunities : PyVal

/-- `get_latest_insights(cursor)`: read-only fetch of the most recent
record; any exception is caught and converted to a warning plus `None`. -/
def getLatestInsights (env : Env) : Option LatestView × List Event :=
  match env.latestRow with
  | .error e =>
    (Option.none,
     [.storeRead, .ui (.warning ("Could not load latest vendor insights: " ++ e))])
  | .ok Option.none => (Option.none, [.storeRead])
  | .ok (some r) =>
    let va := variantToObjDict r.data
    (some ⟨r.insight_id, r.generated_at, va, variantToObjList r.recommendations,
      r.est_savings.getD 0, (dictGet va "opportunities").getD (.list [])⟩,
     [.storeRead])

/-- Model of Python `str(v)` for the values compared against the
fingerprint.  Strings and scalars follow CPython; the `repr` of non-cent
floats and of containers is abstracted (such values never occur as stored
`input_hash` fields, which are hex-digest strings). -/
def pyStrOf : PyVal → String
  | .str s => s
  | .int n => toString n
  | .bool b => if b then "True" else "False"
  | .none => "None"
  | .float q => if (centsOf q : ℚ) = q * 100 then centsRepr (centsOf q) else toString q
  | .list _ => "[...]"
  | .dict _ => "(dict)"

/-- What `_build_prompt` renders: the truncated summaries and the metadata
(the textual layout of the instruction is abstracted; the prompt embeds
exactly these rows via `to_string`). -/
structure PromptData : Type where
  vendors : List VendorAgg
  categories : List CatAgg
  highFreq : List HFAgg
  meta : AggMeta

def buildPromptData (v : List VendorAgg) (c : List CatAgg) (h : List HFAgg)
    (m : AggMeta) : PromptData := ⟨v, c, h, m⟩

/-- The truncated summaries of one run: `df_vendors.head(top_vendors)`,
`df_categories.head(top_categories)`, `df_high_freq.head(10)`, and meta —
the single set of values feeding both the prompt and the fingerprint. -/
def promptInputsOf (cfg : Cfg) (rows : List ExpenseRow) :
    List VendorAgg × List CatAgg × List HFAgg × AggMeta :=
  let g := gatherVendorData rows
  (g.1.take cfg.topVendorsInPrompt, g.2.1.take cfg.topCategoriesInPrompt,
   g.2.2.2.take 10, g.2.2.1)

/-- The fingerprint computed by `analyze_vendors` for a run. -/
def fingerprintOf (cfg : Cfg) (rows : List ExpenseRow) : String :=
  let p := promptInputsOf cfg rows
  computeInputHash (p.1.map vendorAggRow) (p.2.1.map catAggRow)
    (p.2.2.1.map hfAggRow) p.2.2.2

/-- The value `_run_openai_json` produces once the client is configured:
`None` when the call raises, the response fails to parse, or parses to a
non-dict; the parsed dict otherwise. -/
def openaiJsonResult (t : Except String String) : Option (List (String × PyVal)) :=
  match t with
  | .error _ => Option.none
  | .ok text =>
    match pyLoads (strPyStrip text) with
    | some (.dict kvs) => some kvs
    | _ => Option.none

/-- `_run_openai_json(prompt)` with its trace: no call at all when the
client is absent; otherwise one call with the configured temperature and
the JSON-constrained response format, exceptions caught into a warning. -/
def runOpenaiJson (cfg : Cfg) (env : Env) :
    Option (List (String × PyVal)) × List Event :=
  if cfg.openaiConfigured then
    let callEv := Event.openaiCall cfg.temperature "json_object"
    match env.openaiText with
    | .error e =>
      (Option.none,
       [callEv, .ui (.warning
         ("OpenAI vendor intel failed; attempting Claude fallback. (" ++ e ++ ")"))])
    | .ok text =>
      match pyLoads (strPyStrip text) with
      | some (.dict kvs) => (some kvs, [callEv])
      | some _ => (Option.none, [callEv])
      | Option.none =>
        (Option.none,
         [callEv, .ui (.warning
           "OpenAI vendor intel failed; attempting Claude fallback. (json)")])
  else (Option.none, [])

/-- The value `_run_claude_json` produces: the recovered dict, or `None`
when the call raises or no repair yields a JSON object. -/
def claudeJsonResult (t : Except String String) : Option (List (String × PyVal)) :=
  match t with
  | .error _ => Option.none
  | .ok raw => claudeJsonSeq raw.toList

/-- `_run_claude_json(prompt)` with its trace. -/
def runClaudeJson (env : Env) : Option (List (String × PyVal)) × List Event :=
  match env.claudeText with
  | .error e =>
    (Option.none, [.claudeCall, .ui (.warning ("Claude vendor intel failed. (" ++ e ++ ")"))])
  | .ok raw => (claudeJsonSeq raw.toList, [.claudeCall])

/-- The raw `meta` dict attached to the analysis payload. -/
def metaToPy (m : AggMeta) : PyVal :=
  .dict [("grand_total", .float m.grand_total),
         ("project_count", .int m.project_count),
         ("earliest_date", match m.earliest_date with
            | some d => .str d
            | Option.none => .none),
         ("latest_date", match m.latest_date with
            | some d => .str d
            | Option.none => .none)]

/-- The normalized payload `analyze_vendors` returns to the UI. -/
structure AnalysisResult : Type where
  generated_at : ℕ
  vendor_analysis : PyVal
  opportunities : PyVal
  recommendations : PyVal
  estimated_savings : ℚ

/-- The cache-hit payload: the stored analysis wrapped unchanged
(`latest_analysis or {}` equals the stored dict in every case). -/
def cacheHitResult (latest : LatestView) : AnalysisResult :=
  let la := latest.vendor_analysis
  ⟨latest.generated_at, .dict la,
   (dictGet la "opportunities").getD (.list []),
   (dictGet la "recommendations").getD (.list []),
   latest.estimated_savings⟩

def dictGetOf (v : PyVal) (k : String) : Option PyVal :=
  match v with
  | .dict kvs => dictGet kvs k
  | _ => Option.none

/-- The body of `analyze_vendors` inside its `try`: `.error` models an
exception escaping to the outer handler. -/
def analyzeVendorsBody (cfg : Cfg) (env : Env) (forceRerun : Bool) :
    Except String (Option AnalysisResult) × List Event :=
  match env.fetchRows with
  | .error e => (.error e, [])
  | .ok rows =>
    if (gatherVendorData rows).1.isEmpty then
      (.ok Option.none, [.ui (.info "No EXPENSES data found for vendor analysis.")])
    else
      let p := promptInputsOf cfg rows
      let ih := fingerprintOf cfg rows
      let cacheStep : Option AnalysisResult × List Event :=
        if forceRerun then (Option.none, [])
        else
          match getLatestInsights env with
          | (Option.none, ev) => (Option.none, ev)
          | (some latest, ev) =>
            if strPyStrip (pyStrOf ((dictGet latest.vendor_analysis "input_hash").getD (.str ""))) = ih
            then (some (cacheHitResult latest), ev)
            else (Option.none, ev)
      match cacheStep with
      | (some r, ev) => (.ok (some r), ev)
      | (Option.none, ev0) =>
        let _prompt := buildPromptData p.1 p.2.1 p.2.2.1 p.2.2.2
        let o1 := runOpenaiJson cfg env
        let afterProviders : Option (List (String × PyVal)) × List Event :=
          match o1.1 with
          | some a => (some a, ev0 ++ o1.2)
          | Option.none =>
            let oc := runClaudeJson env
            (oc.1, ev0 ++ o1.2 ++ oc.2)
        match afterProviders with
        | (Option.none, ev2) =>
          (.ok Option.none,
           ev2 ++ [.ui (.error "Vendor Intelligence: both OpenAI and Claude failed to produce valid JSON.")])
        | (some kvs0, ev2) =>
          let kvs1 := dictSet (dictSet kvs0 "input_hash" (.str ih)) "meta" (metaToPy p.2.2.2)
          let analysis := normalizeTotals (.dict kvs1)
          let tRaw := (dictGetOf analysis "total_estimated_savings").getD (.int 0)
          let tVal := if pyFalsy tRaw then PyVal.int 0 else tRaw
          match pyFloat tVal with
          | .error _ => (.error "could not convert to float", ev2)
          | .ok est =>
            let result : AnalysisResult :=
              ⟨env.now, analysis,
               (dictGetOf analysis "opportunities").getD (.list []),
               (dictGetOf analysis "recommendations").getD (.list []), est⟩
            match env.saveOutcome with
            | .ok _ => (.ok (some result), ev2 ++ [.storeWrite])
            | .error e =>
              (.ok (some result),
               ev2 ++ [.storeWrite,
                 .ui (.warning ("Vendor Intelligence generated but not persisted to Snowflake: " ++ e))])

/-- The value and trace of one `analyze_vendors` call. -/
structure RunResult : Type where
  result : Option AnalysisResult
  events : List Event

/-- `analyze_vendors(cursor, force_rerun)`: the body's outcome with the
top-level `except Exception` handler applied — every exception becomes a
user-visible error message and a `None` return. -/
def analyzeVendors (cfg : Cfg) (env : Env) (forceRerun : Bool) : RunResult :=
  match analyzeVendorsBody cfg env forceRerun with
  | (.ok r, ev) => ⟨r, ev⟩
  | (.error e, ev) => ⟨Option.none, ev ++ [.ui (.error ("Vendor analysis error: " ++ e))]⟩

/-! ## Helper lemmas -/

theorem insertBy_ne_nil {α : Type} (le : α → α → Bool) (a : α) (l : List α) :
    insertBy le a l ≠ [] := by
  cases l with
  | nil => simp [insertBy]
  | cons b t =>
    unfold insertBy
    split <;> simp

theorem sortBy_eq_nil_iff {α : Type} (le : α → α → Bool) (l : List α) :
    sortBy le l = [] ↔ l = [] := by
  cases l with
  | nil => simp [sortBy]
  | cons a t =>
    simp only [sortBy, List.foldr_cons]
    constructor
    · intro h
      exact absurd h (insertBy_ne_nil le a _)
    · intro h
      exact absurd h (by simp)

theorem mem_insertBy {α : Type} (le : α → α → Bool) (a x : α) (l : List α) :
    x ∈ insertBy le a l ↔ x = a ∨ x ∈ l := by
  induction l with
  | nil => simp [insertBy]
  | cons b t ih =>
    unfold insertBy
    split
    · simp
    · simp only [List.mem_cons, ih]
      tauto

theorem mem_sortBy {α : Type} (le : α → α → Bool) (x : α) (l : List α) :
    x ∈ sortBy le l ↔ x ∈ l := by
  induction l with
  | nil => simp [sortBy]
  | cons a t ih =>
    simp only [sortBy, List.foldr_cons] at ih ⊢
    rw [mem_insertBy, ih, List.mem_cons]

theorem pairwise_insertBy {α : Type} (le : α → α → Bool)
    (htot : ∀ a b, le a b = false → le b a = true)
    (htrans : ∀ a b c, le a b = true → le b c = true → le a c = true)
    (a : α) (l : List α) (h : l.Pairwise (fun x y => le x y = true)) :
    (insertBy le a l).Pairwise (fun x y => le x y = true) := by
  induction l with
  | nil => simp [insertBy]
  | cons b t ih =>
    cases h with
    | cons hb ht =>
      unfold insertBy
      split
      · rename_i hab
        refine List.Pairwise.cons ?_ (List.Pairwise.cons hb ht)
        intro y hy
        rcases List.mem_cons.mp hy with hyb | hyt
        · rw [hyb]
          exact hab
        · exact htrans a b y hab (hb y hyt)
      · rename_i hab
        refine List.Pairwise.cons ?_ (ih ht)
        intro y hy
        rcases (mem_insertBy le a y t).mp hy with hya | hyt
        · rw [hya]
          exact htot a b (by simpa using hab)
        · exact hb y hyt

theorem pairwise_sortBy {α : Type} (le : α → α → Bool)
    (htot : ∀ a b, le a b = false → le b a = true)
    (htrans : ∀ a b c, le a b = true → le b c = true → le a c = true)
    (l : List α) : (sortBy le l).Pairwise (fun x y => le x y = true) := by
  induction l with
  | nil => simp [sortBy]
  | cons a t ih =>
    simp only [sortBy, List.foldr_cons] at ih ⊢
    exact pairwise_insertBy le htot htrans a _ ih

theorem gatherVendors_ne_nil (rows : List ExpenseRow) (h : rows ≠ []) :
    gatherVendors rows ≠ [] := by
  intro hc
  rw [gatherVendors, sortBy_eq_nil_iff, vendorGroups, List.map_eq_nil_iff,
    groupKeys, sortBy_eq_nil_iff, List.dedup_eq_nil, List.map_eq_nil_iff] at hc
  exact h hc

theorem dictSet_dictSet (kvs : List (String × PyVal)) (k : String) (v w : PyVal) :
    dictSet (dictSet kvs k v) k w = dictSet kvs k w := by
  induction kvs with
  | nil => simp [dictSet]
  | cons hd t ih =>
    obtain ⟨k1, v1⟩ := hd
    by_cases hk : k1 = k
    · simp [dictSet, hk]
    · simp [dictSet, hk, ih]

theorem dropWhile_eq_self_of_head {α : Type} (p : α → Bool) (l : List α)
    (h : ∀ x, l.head? = some x → p x = false) : l.dropWhile p = l := by
  cases l with
  | nil => rfl
  | cons a t => simp [List.dropWhile_cons, h a rfl]

theorem getLast?_dropWhile {α : Type} (p : α → Bool) (l : List α)
    (h : l.dropWhile p ≠ []) : (l.dropWhile p).getLast? = l.getLast? := by
  induction l with
  | nil => simp at h
  | cons a t ih =>
    by_cases hp : p a
    · rw [List.dropWhile_cons, if_pos hp] at h ⊢
      have ht : t ≠ [] := by
        intro he
        rw [he] at h
        simp at h
      rw [ih h]
      cases t with
      | nil => exact absurd rfl ht
      | cons b u => rw [List.getLast?_cons_cons]
    · rw [List.dropWhile_cons, if_neg hp]

theorem pyStrip_idem (cs : List Char) : pyStrip (pyStrip cs) = pyStrip cs := by
  unfold pyStrip
  have h1 : ((((cs.dropWhile isPyWs).reverse.dropWhile isPyWs).reverse).dropWhile isPyWs) =
      ((cs.dropWhile isPyWs).reverse.dropWhile isPyWs).reverse := by
    apply dropWhile_eq_self_of_head
    intro x hx
    rw [List.head?_reverse] at hx
    by_cases hB : (cs.dropWhile isPyWs).reverse.dropWhile isPyWs = []
    · rw [hB] at hx
      simp at hx
    · rw [getLast?_dropWhile _ _ hB, List.getLast?_reverse] at hx
      have h2 := List.head?_dropWhile_not isPyWs cs
      rw [hx] at h2
      exact h2
  rw [h1, List.reverse_reverse]
  have h3 : ((cs.dropWhile isPyWs).reverse.dropWhile isPyWs).dropWhile isPyWs =
      (cs.dropWhile isPyWs).reverse.dropWhile isPyWs := by
    apply dropWhile_eq_self_of_head
    intro x hx
    have h2 := List.head?_dropWhile_not isPyWs (cs.dropWhile isPyWs).reverse
    rw [hx] at h2
    exact h2
  rw [h3]

theorem scanReplace_eq_self (m : List Char → Option (List Char × List Char)) :
    ∀ (fuel : ℕ) (cs : List Char), cs.length ≤ fuel →
    (∀ i, m (cs.drop i) = Option.none) → scanReplace m fuel cs = cs := by
  intro fuel
  induction fuel with
  | zero =>
    intro cs hlen _
    cases cs with
    | nil => rfl
    | cons c rest => simp at hlen
  | succ n ih =>
    intro cs hlen h
    cases cs with
    | nil => rfl
    | cons c rest =>
      have h0 := h 0
      simp only [List.drop_zero] at h0
      unfold scanReplace
      rw [h0]
      have hr : scanReplace m n rest = rest := by
        apply ih rest (by simpa using Nat.le_of_succ_le_succ hlen)
        intro i
        have := h (i + 1)
        simpa using this
      rw [hr]

theorem matchFenceJson_eq_none (ds : List Char)
    (h : ∀ c ∈ ds, isBacktick c = false) : matchFenceJson ds = Option.none := by
  unfold matchFenceJson
  split
  · rename_i x1 x2 x3 x4 x5 x6 x7 rest
    rw [h x1 (by simp)]
    simp
  · rfl

theorem matchFencePlain_eq_none (ds : List Char)
    (h : ∀ c ∈ ds, isBacktick c = false) : matchFencePlain ds = Option.none := by
  unfold matchFencePlain
  split
  · rename_i x1 x2 x3 rest
    rw [h x1 (by simp)]
    simp
  · rfl

theorem stripCodeFences_no_backtick (cs : List Char)
    (h : ∀ c ∈ cs, isBacktick c = false) : stripCodeFences cs = pyStrip cs := by
  unfold stripCodeFences
  dsimp only
  rw [scanReplace_eq_self matchFenceJson cs.length cs le_rfl
    (fun i => matchFenceJson_eq_none _ (fun c hc => h c (List.drop_subset i cs hc)))]
  rw [scanReplace_eq_self matchFencePlain cs.length cs le_rfl
    (fun i => matchFencePlain_eq_none _ (fun c hc => h c (List.drop_subset i cs hc)))]

theorem extractFirstL_of_valid (t : List Char) (d : List (String × PyVal))
    (h : pyLoadsL (pyStrip t) = some (.dict d)) : extractFirstL t = some d := by
  unfold extractFirstL
  dsimp only
  rw [h]

theorem claudeJsonSeq_of_valid (t : List Char) (d : List (String × PyVal))
    (hb : ∀ c ∈ t, isBacktick c = false)
    (h : pyLoadsL (pyStrip t) = some (.dict d)) : claudeJsonSeq t = some d := by
  unfold claudeJsonSeq
  dsimp only
  rw [stripCodeFences_no_backtick t hb]
  rw [extractFirstL_of_valid (pyStrip t) d (by rw [pyStrip_idem]; exact h)]

theorem savingsOf_set (kvs : List (String × PyVal)) (r : ℚ) :
    savingsOf (dictSet kvs "estimated_savings" (.float r)) = .ok r := by
  unfold savingsOf
  rw [dictGet_dictSet_self]
  by_cases h : r = 0
  · subst h
    simp [pyFalsy, pyFloat]
  · simp [pyFalsy, h, pyFloat]

theorem loopOpps_ok_idem : ∀ (l cleaned : List PyVal) (t : ℚ),
    loopOpps l = .ok (cleaned, t) → loopOpps cleaned = .ok (cleaned, t) := by
  intro l
  induction l with
  | nil =>
    intro cleaned t h
    unfold loopOpps at h
    simp at h
    rw [h.1, ← h.2]
    rfl
  | cons o rest ih =>
    intro cleaned t h
    unfold loopOpps at h
    match ho : o, h with
    | PyVal.dict kvs, h =>
      simp only at h
      match hs : savingsOf kvs, h with
      | .error _, h => simp [hs] at h
      | .ok q, h =>
        simp only [hs] at h
        match hrest : loopOpps rest, h with
        | .error _, h => simp [hrest] at h
        | .ok (cleaned', t'), h =>
          simp only [hrest] at h
          have hc : cleaned = PyVal.dict (dictSet kvs "estimated_savings" (.float (round2 q))) :: cleaned' := by
            have := congrArg Prod.fst (Except.ok.inj h)
            simpa using this.symm
          have htq : t = round2 q + t' := by
            have := congrArg Prod.snd (Except.ok.inj h)
            simpa using this.symm
          rw [hc, htq]
          unfold loopOpps
          simp only [savingsOf_set]
          rw [ih cleaned' t' hrest]
          simp only [round2_idem, dictSet_dictSet]
    | PyVal.none, h | PyVal.bool _, h | PyVal.int _, h | PyVal.float _, h
    | PyVal.str _, h | PyVal.list _, h =>
      simp only at h
      match hrest : loopOpps rest, h with
      | .error _, h => simp [hrest] at h
      | .ok (cleaned', t'), h =>
        simp only [hrest] at h
        have hc : cleaned = cleaned' ∧ t = t' := by
          have h1 := congrArg Prod.fst (Except.ok.inj h)
          have h2 := congrArg Prod.snd (Except.ok.inj h)
          simp at h1 h2
          exact ⟨h1.symm, h2.symm⟩
        rw [hc.1, hc.2]
        exact ih cleaned' t' hrest

theorem loopOpps_error_ne_nil : ∀ (l l' : List PyVal),
    loopOpps l = .error l' → l' ≠ [] := by
  intro l
  induction l with
  | nil =>
    intro l' h
    simp [loopOpps] at h
  | cons o rest ih =>
    intro l' h
    unfold loopOpps at h
    match ho : o, h with
    | PyVal.dict kvs, h =>
      simp only at h
      match hs : savingsOf kvs, h with
      | .error _, h =>
        simp only [hs] at h
        have := Except.error.inj h
        rw [← this]
        simp
      | .ok q, h =>
        simp only [hs] at h
        match hrest : loopOpps rest, h with
        | .error rest', h =>
          simp only [hrest] at h
          have := Except.error.inj h
          rw [← this]
          simp
        | .ok (cleaned', t'), h => simp [hrest] at h
    | PyVal.none, h | PyVal.bool _, h | PyVal.int _, h | PyVal.float _, h
    | PyVal.str _, h | PyVal.list _, h =>
      simp only at h
      match hrest : loopOpps rest, h with
      | .error rest', h =>
        simp only [hrest] at h
        have := Except.error.inj h
        rw [← this]
        simp
      | .ok _, h => simp [hrest] at h

theorem loopOpps_error_idem : ∀ (l l' : List PyVal),
    loopOpps l = .error l' → loopOpps l' = .error l' := by
  intro l
  induction l with
  | nil =>
    intro l' h
    simp [loopOpps] at h
  | cons o rest ih =>
    intro l' h
    unfold loopOpps at h
    match ho : o, h with
    | PyVal.dict kvs, h =>
      simp only at h
      match hs : savingsOf kvs, h with
      | .error _, h =>
        simp only [hs] at h
        rw [← Except.error.inj h]
        unfold loopOpps
        simp only [hs]
      | .ok q, h =>
        simp only [hs] at h
        match hrest : loopOpps rest, h with
        | .error rest', h =>
          simp only [hrest] at h
          rw [← Except.error.inj h]
          unfold loopOpps
          simp only [savingsOf_set]
          rw [ih rest' hrest]
          simp only [round2_idem, dictSet_dictSet]
        | .ok _, h => simp [hrest] at h
    | PyVal.none, h | PyVal.bool _, h | PyVal.int _, h | PyVal.float _, h
    | PyVal.str _, h | PyVal.list _, h =>
      simp only at h
      match hrest : loopOpps rest, h with
      | .error rest', h =>
        simp only [hrest] at h
        rw [← Except.error.inj h]
        unfold loopOpps
        simp only
        rw [ih rest' hrest]
      | .ok _, h => simp [hrest] at h

theorem falsy_list_cases (l : List PyVal) :
    (if pyFalsy (.list l) then PyVal.list [] else PyVal.list l) = PyVal.list l := by
  by_cases hc : l = []
  · subst hc
    simp
  · simp [pyFalsy, hc]

theorem pyFloat_float_guard (T : ℚ) :
    pyFloat (if pyFalsy (.float T) then PyVal.int 0 else PyVal.float T) = .ok T := by
  by_cases hz : T = 0
  · subst hz
    simp [pyFalsy, pyFloat]
  · simp [pyFalsy, hz, pyFloat]

theorem normalizeTotals_fixpoint (kvsr : List (String × PyVal)) (cleaned : List PyVal)
    (total T : ℚ)
    (hopp : dictGet kvsr "opportunities" = some (.list cleaned))
    (hloop : loopOpps cleaned = .ok (cleaned, total))
    (ht : dictGet kvsr "total_estimated_savings" = some (.float T))
    (hT : round2 T = T)
    (hcond : ¬ (1/100 < |T - round2 total|)) :
    normalizeTotals (.dict kvsr) = .dict kvsr := by
  unfold normalizeTotals
  dsimp only
  rw [hopp]
  simp only [Option.getD_some]
  rw [falsy_list_cases]
  simp only [pyIterElems]
  rw [hloop]
  dsimp only
  rw [dictSet_same kvsr _ _ hopp, ht]
  simp only [Option.getD_some]
  rw [pyFloat_float_guard]
  dsimp only
  rw [hT, dictSet_same kvsr _ _ ht, if_neg hcond]

theorem normalizeTotals_error_fixpoint (kvsr : List (String × PyVal))
    (elems' : List PyVal)
    (hopp : dictGet kvsr "opportunities" = some (.list elems'))
    (hloop : loopOpps elems' = .error elems') :
    normalizeTotals (.dict kvsr) = .dict kvsr := by
  unfold normalizeTotals
  dsimp only
  rw [hopp]
  simp only [Option.getD_some]
  rw [falsy_list_cases]
  simp only [pyIterElems]
  rw [hloop]
  dsimp only
  rw [dictSet_same kvsr _ _ hopp]

theorem normalizeTotals_terr_fixpoint (kvsr : List (String × PyVal))
    (cleaned : List PyVal) (total : ℚ) (e : Unit)
    (hopp : dictGet kvsr "opportunities" = some (.list cleaned))
    (hloop : loopOpps cleaned = .ok (cleaned, total))
    (herr : pyFloat (if pyFalsy ((dictGet kvsr "total_estimated_savings").getD (.float total))
      then PyVal.int 0
      else (dictGet kvsr "total_estimated_savings").getD (.float total)) = .error e) :
    normalizeTotals (.dict kvsr) = .dict kvsr := by
  unfold normalizeTotals
  dsimp only
  rw [hopp]
  simp only [Option.getD_some]
  rw [falsy_list_cases]
  simp only [pyIterElems]
  rw [hloop]
  dsimp only
  rw [dictSet_same kvsr _ _ hopp, herr]

theorem normalizeTotals_idem (a : PyVal) :
    normalizeTotals (normalizeTotals a) = normalizeTotals a := by
  suffices h : ∀ r, normalizeTotals a = r → normalizeTotals r = r from h _ rfl
  intro r hr
  cases a with
  | none =>
    rw [show normalizeTotals PyVal.none = PyVal.none from rfl] at hr
    rw [← hr]
    rfl
  | bool b =>
    rw [show normalizeTotals (PyVal.bool b) = PyVal.bool b from rfl] at hr
    rw [← hr]
    rfl
  | int n =>
    rw [show normalizeTotals (PyVal.int n) = PyVal.int n from rfl] at hr
    rw [← hr]
    rfl
  | float q =>
    rw [show normalizeTotals (PyVal.float q) = PyVal.float q from rfl] at hr
    rw [← hr]
    rfl
  | str s =>
    rw [show normalizeTotals (PyVal.str s) = PyVal.str s from rfl] at hr
    rw [← hr]
    rfl
  | list xs =>
    rw [show normalizeTotals (PyVal.list xs) = PyVal.list xs from rfl] at hr
    rw [← hr]
    rfl
  | dict kvs =>
    unfold normalizeTotals at hr
    dsimp only at hr
    split at hr
    · rename_i heq
      rw [← hr]
      unfold normalizeTotals
      dsimp only
      rw [heq]
    · rename_i elems heq
      split at hr
      · rename_i elems' heq2
        rw [← hr]
        exact normalizeTotals_error_fixpoint _ elems' (dictGet_dictSet_self _ _ _)
          (loopOpps_error_idem elems elems' heq2)
      · rename_i cleaned total heq2
        split at hr
        · rename_i e heq3
          rw [← hr]
          exact normalizeTotals_terr_fixpoint _ cleaned total e
            (dictGet_dictSet_self _ _ _)
            (loopOpps_ok_idem elems cleaned total heq2) heq3
        · rename_i q heq3
          split at hr
          · rw [← hr]
            refine normalizeTotals_fixpoint _ cleaned total (round2 total)
              ?_ ?_ ?_ ?_ ?_
            · rw [dictGet_dictSet_other _ _ _ _ (by decide),
                dictGet_dictSet_other _ _ _ _ (by decide)]
              exact dictGet_dictSet_self _ _ _
            · exact loopOpps_ok_idem elems cleaned total heq2
            · exact dictGet_dictSet_self _ _ _
            · exact round2_idem total
            · simp
          · rename_i hcnd
            rw [← hr]
            refine normalizeTotals_fixpoint _ cleaned total (round2 q)
              ?_ ?_ ?_ ?_ hcnd
            · rw [dictGet_dictSet_other _ _ _ _ (by decide)]
              exact dictGet_dictSet_self _ _ _
            · exact loopOpps_ok_idem elems cleaned total heq2
            · exact dictGet_dictSet_self _ _ _
            · exact round2_idem q

theorem providerCalls_append (a b : List Event) :
    providerCalls (a ++ b) = providerCalls a ++ providerCalls b := by
  unfold providerCalls
  rw [List.filter_append]

theorem storeWriteCount_append (a b : List Event) :
    storeWriteCount (a ++ b) = storeWriteCount a + storeWriteCount b := by
  unfold storeWriteCount
  rw [List.filter_append, List.length_append]

theorem runOpenaiJson_fst (cfg : Cfg) (env : Env) (h : cfg.openaiConfigured = true) :
    (runOpenaiJson cfg env).1 = openaiJsonResult env.openaiText := by
  unfold runOpenaiJson openaiJsonResult
  simp only [h, if_true]
  cases env.openaiText with
  | error e => rfl
  | ok text =>
    dsimp only
    split
    · rename_i kvs heq
      simp [heq]
    · rename_i val hnd heq
      rw [heq]
      cases val with
      | dict kvs2 => exact (hnd kvs2 rfl).elim
      | none => rfl
      | bool b => rfl
      | int n => rfl
      | float q => rfl
      | str s => rfl
      | list xs => rfl
    · rename_i heq
      simp [heq]

theorem runClaudeJson_fst (env : Env) :
    (runClaudeJson env).1 = claudeJsonResult env.claudeText := by
  unfold runClaudeJson claudeJsonResult
  cases env.claudeText <;> rfl

theorem providerCalls_runOpenai (cfg : Cfg) (env : Env)
    (h : cfg.openaiConfigured = true) :
    providerCalls (runOpenaiJson cfg env).2 =
      [.openaiCall cfg.temperature "json_object"] := by
  unfold runOpenaiJson
  simp only [h, if_true]
  cases env.openaiText with
  | error e => simp [providerCalls]
  | ok text =>
    dsimp only
    split <;> simp [providerCalls]

theorem providerCalls_runClaude (env : Env) :
    providerCalls (runClaudeJson env).2 = [.claudeCall] := by
  unfold runClaudeJson
  cases env.claudeText <;> simp [providerCalls]

theorem storeWriteCount_runOpenai (cfg : Cfg) (env : Env) :
    storeWriteCount (runOpenaiJson cfg env).2 = 0 := by
  unfold runOpenaiJson
  by_cases h : cfg.openaiConfigured
  · simp only [h, if_true]
    cases env.openaiText with
    | error e => simp [storeWriteCount]
    | ok text =>
      dsimp only
      split <;> simp [storeWriteCount]
  · simp [h, storeWriteCount]

theorem storeWriteCount_runClaude (env : Env) :
    storeWriteCount (runClaudeJson env).2 = 0 := by
  unfold runClaudeJson
  cases env.claudeText <;> simp [storeWriteCount]

/-! ## Claim theorems -/

/-- Claim C10: `analyze_vendors` never raises to its caller.  Whatever the
body's outcome — including any exception raised by the data store or the
result assembly — the top-level handler converts it: an `ok` value is
returned as-is and a raised error becomes a `None` result with an error
message appended to the trace. -/
theorem c10_analyze_vendors_never_raises (cfg : Cfg) (env : Env) (force : Bool) :
    (∃ v ev, analyzeVendorsBody cfg env force = (.ok v, ev) ∧
      analyzeVendors cfg env force = ⟨v, ev⟩) ∨
    (∃ e ev, analyzeVendorsBody cfg env force = (.error e, ev) ∧
      analyzeVendors cfg env force =
        ⟨Option.none, ev ++ [.ui (.error ("Vendor analysis error: " ++ e))]⟩) := by
  cases h : analyzeVendorsBody cfg env force with
  | mk res ev =>
    cases res with
    | ok v =>
      refine Or.inl ⟨v, ev, rfl, ?_⟩
      unfold analyzeVendors
      rw [h]
    | error e =>
      refine Or.inr ⟨e, ev, rfl, ?_⟩
      unfold analyzeVendors
      rw [h]

/-- Claim C5: the totals normalizer is pure — modelled as a function of its
input with no effects — and idempotent: applying `_normalize_analysis_totals`
twice yields the same result as applying it once, for every input value
(including the partially-mutated outcomes of its own exception paths). -/
theorem c5_normalizer_pure_idempotent (a : PyVal) :
    normalizeTotals (normalizeTotals a) = normalizeTotals a :=
  normalizeTotals_idem a

/-- Two vendor dataframe rows used to exhibit the order-sensitivity of the
fingerprint. -/
def c2RowA : DRow :=
  [("VENDOR", .cstr "A"), ("total_spend", .cfloat 1),
   ("transaction_count", .cint 1), ("avg_transaction", .cfloat 1)]

def c2RowB : DRow :=
  [("VENDOR", .cstr "B"), ("total_spend", .cfloat 2),
   ("transaction_count", .cint 1), ("avg_transaction", .cfloat 2)]

def c2Meta : AggMeta := ⟨0, 0, Option.none, Option.none⟩

set_option maxRecDepth 4000 in
/-- Claim C2 (counterexample): two aggregation inputs holding the SAME two
vendor rows, merely presented in swapped order (a permutation), produce
different SHA-256 digests — `json.dumps(sort_keys=True)` sorts object keys
but leaves the row lists in presentation order, so the fingerprint is not
row-order independent as the claim states. -/
theorem c2_counterexample :
    [c2RowA, c2RowB].Perm [c2RowB, c2RowA] ∧
    computeInputHash [c2RowA, c2RowB] [] [] c2Meta ≠
      computeInputHash [c2RowB, c2RowA] [] [] c2Meta := by
  constructor
  · exact List.Perm.swap _ _ _
  · with_unfolding_all decide

/-- Claim C2 (amended): fingerprinting is a pure deterministic function of
its inputs (no I/O in the model by construction); any two inputs whose
canonical row records — rows IN ORDER, floats rounded to 2 decimals,
strings stripped, capped at 50 rows — and whose canonical meta coincide
hash to the byte-identical SHA-256 hex digest.  Row order remains
significant (see the counterexample). -/
theorem c2_amended_fingerprint_deterministic (v1 v2 c1 c2 h1 h2 : List DRow)
    (m1 m2 : AggMeta)
    (hv : stableRecords v1 vendorHashCols 50 = stableRecords v2 vendorHashCols 50)
    (hc : stableRecords c1 catHashCols 50 = stableRecords c2 catHashCols 50)
    (hh : stableRecords h1 hfHashCols 50 = stableRecords h2 hfHashCols 50)
    (hm : metaCanon m1 = metaCanon m2) :
    computeInputHash v1 c1 h1 m1 = computeInputHash v2 c2 h2 m2 := by
  unfold computeInputHash hashPayload
  rw [hv, hc, hh, hm]

/-- Rows identical up to rounding and whitespace, for the C2 witness. -/
def c2wRow1 : DRow :=
  [("VENDOR", .cstr " Home Depot "), ("total_spend", .cfloat (314159/100000)),
   ("transaction_count", .cint 2), ("avg_transaction", .cfloat (157079/100000))]

def c2wRow2 : DRow :=
  [("VENDOR", .cstr "Home Depot"), ("total_spend", .cfloat (31401/10000)),
   ("transaction_count", .cint 2), ("avg_transaction", .cfloat (15708/10000))]

theorem c2_amended_fingerprint_deterministic_witness :
    stableRecords [c2wRow1] vendorHashCols 50 = stableRecords [c2wRow2] vendorHashCols 50 ∧
    computeInputHash [c2wRow1] [] [] c2Meta = computeInputHash [c2wRow2] [] [] c2Meta :=
  ⟨by with_unfolding_all rfl,
   c2_amended_fingerprint_deterministic [c2wRow1] [c2wRow2] [] [] [] [] c2Meta c2Meta
    (by with_unfolding_all rfl) rfl rfl rfl⟩

/-- Claim C6 (amended): an aggregation-query failure is NOT propagated as an
error to the caller — the entry point's top-level handler catches it and
returns `None`, the same return value as the normal empty-data state; the
two outcomes are distinguishable only by the emitted message (`st.error`
for the caught exception, `st.info` for empty data). -/
theorem c6_amended_aggregation_failure_caught (cfg : Cfg)
    (lr : Except String (Option InsightRow)) (oT cT : Except String String)
    (sv : Except String Unit) (now : ℕ) (force : Bool) (e : String) :
    analyzeVendors cfg ⟨.error e, lr, oT, cT, sv, now⟩ force =
      ⟨Option.none, [.ui (.error ("Vendor analysis error: " ++ e))]⟩ ∧
    analyzeVendors cfg ⟨.ok [], lr, oT, cT, sv, now⟩ force =
      ⟨Option.none, [.ui (.info "No EXPENSES data found for vendor analysis.")]⟩ := by
  constructor <;> rfl

def c6Env : Env := ⟨.error "db down", .ok Option.none, .error "x", .error "x", .ok (), 0⟩

def c6EnvEmpty : Env := ⟨.ok [], .ok Option.none, .error "x", .error "x", .ok (), 0⟩

/-- Claim C6 (counterexample): with the expense query raising "db down",
the body raises — but `analyze_vendors` still returns `None` to its caller,
the very value the empty-data state returns; the failure is not propagated
as an error, contradicting the claim. -/
theorem c6_counterexample :
    (analyzeVendorsBody ({} : Cfg) c6Env false).1 = .error "db down" ∧
    (analyzeVendors ({} : Cfg) c6Env false).result = Option.none ∧
    (analyzeVendors ({} : Cfg) c6EnvEmpty false).result = Option.none :=
  ⟨rfl, rfl, rfl⟩

/-- Claim C9: the data fingerprinted is the data the LLM sees.
`analyze_vendors` hands one set of truncated summaries
(`promptInputsOf`) to both the prompt builder and the hash; the run's
fingerprint is computed from exactly the rows embedded in the prompt, and
as long as the configured top-K limits stay within the 50-row hashing cap
of `_stable_df_records`, the cap truncates none of those rows. -/
theorem c9_prompt_rows_equal_hash_rows (cfg : Cfg) (rows : List ExpenseRow)
    (hv : cfg.topVendorsInPrompt ≤ 50) (hc : cfg.topCategoriesInPrompt ≤ 50) :
    (fingerprintOf cfg rows =
      computeInputHash
        ((buildPromptData (promptInputsOf cfg rows).1 (promptInputsOf cfg rows).2.1
          (promptInputsOf cfg rows).2.2.1 (promptInputsOf cfg rows).2.2.2).vendors.map
            vendorAggRow)
        ((buildPromptData (promptInputsOf cfg rows).1 (promptInputsOf cfg rows).2.1
          (promptInputsOf cfg rows).2.2.1 (promptInputsOf cfg rows).2.2.2).categories.map
            catAggRow)
        ((buildPromptData (promptInputsOf cfg rows).1 (promptInputsOf cfg rows).2.1
          (promptInputsOf cfg rows).2.2.1 (promptInputsOf cfg rows).2.2.2).highFreq.map
            hfAggRow)
        (buildPromptData (promptInputsOf cfg rows).1 (promptInputsOf cfg rows).2.1
          (promptInputsOf cfg rows).2.2.1 (promptInputsOf cfg rows).2.2.2).meta) ∧
    stableRecords ((promptInputsOf cfg rows).1.map vendorAggRow) vendorHashCols 50 =
      ((promptInputsOf cfg rows).1.map vendorAggRow).map
        (fun r => .jobj (vendorHashCols.map (fun c => (c, stableCell (rowGet r c))))) ∧
    stableRecords ((promptInputsOf cfg rows).2.1.map catAggRow) catHashCols 50 =
      ((promptInputsOf cfg rows).2.1.map catAggRow).map
        (fun r => .jobj (catHashCols.map (fun c => (c, stableCell (rowGet r c))))) ∧
    stableRecords ((promptInputsOf cfg rows).2.2.1.map hfAggRow) hfHashCols 50 =
      ((promptInputsOf cfg rows).2.2.1.map hfAggRow).map
        (fun r => .jobj (hfHashCols.map (fun c => (c, stableCell (rowGet r c))))) := by
  refine ⟨rfl, ?_, ?_, ?_⟩
  · unfold stableRecords
    rw [List.take_of_length_le]
    rw [List.length_map]
    exact le_trans (List.length_take_le _ _) hv
  · unfold stableRecords
    rw [List.take_of_length_le]
    rw [List.length_map]
    exact le_trans (List.length_take_le _ _) hc
  · unfold stableRecords
    rw [List.take_of_length_le]
    rw [List.length_map]
    exact le_trans (List.length_take_le _ _) (by norm_num)

def c9wRows : List ExpenseRow :=
  [⟨some "Ace", some "Tools", 100, "p1", some "2024-01-01"⟩]

theorem c9_prompt_rows_equal_hash_rows_witness :
    ({} : Cfg).topVendorsInPrompt ≤ 50 ∧
    stableRecords ((promptInputsOf {} c9wRows).1.map vendorAggRow) vendorHashCols 50 =
      ((promptInputsOf {} c9wRows).1.map vendorAggRow).map
        (fun r => .jobj (vendorHashCols.map (fun c => (c, stableCell (rowGet r c))))) :=
  ⟨by decide, (c9_prompt_rows_equal_hash_rows {} c9wRows (by decide) (by decide)).2.1⟩

/-- Claim C7 (amended): the high-frequency vendor summary is ordered
descending by transaction count and capped at the top 10 rows for the
prompt — but the source applies NO minimum-count filter: every distinct
vendor of the record set has a row in the summary, including vendors with
fewer than 3 transactions (the spec's "count ≥ 3" rule does not exist in
`_gather_vendor_data`). -/
theorem c7_amended_high_freq_summary (cfg : Cfg) (rows : List ExpenseRow) :
    (gatherHighFreq rows).Pairwise
      (fun a b => b.transaction_count ≤ a.transaction_count) ∧
    (promptInputsOf cfg rows).2.2.1 = (gatherHighFreq rows).take 10 ∧
    (promptInputsOf cfg rows).2.2.1.length ≤ 10 ∧
    ∀ r ∈ rows, ∃ g ∈ gatherHighFreq rows, g.vendor = r.vendor := by
  refine ⟨?_, rfl, List.length_take_le _ _, ?_⟩
  · have hp := pairwise_sortBy countDescHF
      (by
        intro a b hab
        simp only [countDescHF, decide_eq_false_iff_not, not_le] at hab
        simp only [countDescHF, decide_eq_true_eq]
        omega)
      (by
        intro a b c hab hbc
        simp only [countDescHF, decide_eq_true_eq] at hab hbc ⊢
        omega)
      (hfGroups rows)
    exact hp.imp (fun h => by simpa [countDescHF] using h)
  · intro r hr
    have hk : r.vendor ∈ groupKeys (rows.map (·.vendor)) := by
      rw [groupKeys, mem_sortBy, List.mem_dedup]
      exact List.mem_map_of_mem _ hr
    refine ⟨⟨r.vendor, (rows.filter (fun x => x.vendor = r.vendor)).length,
      sumAmounts (rows.filter (fun x => x.vendor = r.vendor))⟩, ?_, rfl⟩
    rw [gatherHighFreq, mem_sortBy, hfGroups]
    exact List.mem_map_of_mem _ hk

def c7Rows : List ExpenseRow := [⟨some "Ace", some "Tools", 100, "p1", Option.none⟩]

/-- Claim C7 (counterexample): a vendor with a single transaction appears in
the prompt's high-frequency summary — contradicting "contains only vendors
with transaction count at least 3". -/
theorem c7_counterexample :
    (promptInputsOf {} c7Rows).2.2.1 = [⟨some "Ace", 1, 100⟩] ∧ (1 : ℕ) < 3 := by
  refine ⟨?_, by decide⟩
  with_unfolding_all rfl

/-- Claim C4 (amended): the normalizer rounds each opportunity's
`estimated_savings` to 2 decimals and sums them; the model-provided total
is itself first rounded to 2 decimals, and the overwrite with the computed
sum occurs exactly when that ROUNDED total differs from the sum by more
than 0.01 — not when the raw model total does (see the counterexample);
the claim's two concrete examples behave exactly as stated. -/
theorem c4_amended_totals_normalization (kvs : List (String × PyVal))
    (l cleaned : List PyVal) (total : ℚ) (tv : PyVal) (m : ℚ)
    (hopp : dictGet kvs "opportunities" = some (.list l))
    (hloop : loopOpps l = .ok (cleaned, total))
    (ht : dictGet kvs "total_estimated_savings" = some tv)
    (hm : pyFloat (if pyFalsy tv then PyVal.int 0 else tv) = .ok m) :
    normalizeTotals (.dict kvs) =
      .dict (dictSet (dictSet kvs "opportunities" (.list cleaned))
        "total_estimated_savings"
        (.float (if 1/100 < |round2 m - round2 total| then round2 total
                 else round2 m))) := by
  unfold normalizeTotals
  dsimp only
  rw [hopp]
  simp only [Option.getD_some]
  rw [falsy_list_cases]
  simp only [pyIterElems]
  rw [hloop]
  dsimp only
  rw [dictGet_dictSet_other _ _ _ _ (by decide), ht]
  simp only [Option.getD_some]
  rw [hm]
  dsimp only
  split
  · rw [dictSet_dictSet]
  · rfl

def c4Opp (q : ℚ) : PyVal := .dict [("estimated_savings", .float q)]

def c4Opps : PyVal := .list [c4Opp (mkRat 450004 1000), c4Opp (mkRat 299996 1000)]

def c4OppsRounded : List PyVal := [c4Opp 450, c4Opp 300]

theorem c4_amended_totals_normalization_witness :
    normalizeTotals (.dict [("opportunities", c4Opps),
        ("total_estimated_savings", .int 700)]) =
      .dict [("opportunities", .list c4OppsRounded),
        ("total_estimated_savings", .float 750)] ∧
    normalizeTotals (.dict [("opportunities", c4Opps),
        ("total_estimated_savings", .float 750)]) =
      .dict [("opportunities", .list c4OppsRounded),
        ("total_estimated_savings", .float 750)] :=
  ⟨(c4_amended_totals_normalization _ _ c4OppsRounded 750 (.int 700) 700
      (by with_unfolding_all rfl) (by with_unfolding_all rfl)
      (by with_unfolding_all rfl) (by with_unfolding_all rfl)).trans
      (by with_unfolding_all rfl),
   (c4_amended_totals_normalization _ _ c4OppsRounded 750 (.float 750) 750
      (by with_unfolding_all rfl) (by with_unfolding_all rfl)
      (by with_unfolding_all rfl) (by with_unfolding_all rfl)).trans
      (by with_unfolding_all rfl)⟩

/-- Claim C4 (counterexample): with opportunities [450.004, 299.996]
(rounded sum 750.00) and a model total of 750.014, the raw model total
differs from the sum by 0.014 > 0.01 — so the claim's "exactly when"
demands an overwrite to 750.00 — yet the code compares only the ROUNDED
total (750.01) against the sum and leaves 750.01 in place. -/
theorem c4_counterexample :
    (1/100 < |mkRat 750014 1000 - 750|) ∧
    dictGetOf (normalizeTotals (.dict [("opportunities", c4Opps),
        ("total_estimated_savings", .float (mkRat 750014 1000))]))
      "total_estimated_savings" = some (.float (mkRat 75001 100)) ∧
    mkRat 75001 100 ≠ (750 : ℚ) := by
  refine ⟨by with_unfolding_all decide, by with_unfolding_all rfl,
    by with_unfolding_all decide⟩

/-- Claim C8 (amended): applied to text that already parses as a JSON
object AND contains no backtick (code-fence) characters, the repair
sequence of `_run_claude_json` returns exactly that parsed object; the
fence-stripping step can corrupt backtick-bearing valid JSON (see the
counterexample).  The trailing-comma example recovers exactly as claimed. -/
theorem c8_amended_repair_preserves_valid_json (t : List Char)
    (d : List (String × PyVal))
    (hb : ∀ c ∈ t, isBacktick c = false)
    (h : pyLoadsL (pyStrip t) = some (.dict d)) :
    claudeJsonSeq t = some d ∧
    claudeJsonSeq ("\x7b\"a\": 1, \"b\": [1,2,]\x7d".toList) =
      some [("a", .int 1), ("b", .list [.int 1, .int 2])] :=
  ⟨claudeJsonSeq_of_valid t d hb h, by with_unfolding_all rfl⟩

def c8wText : List Char := "\x7b\"a\": 1\x7d".toList

theorem c8_amended_repair_preserves_valid_json_witness :
    (∀ c ∈ c8wText, isBacktick c = false) ∧
    claudeJsonSeq c8wText = some [("a", .int 1)] :=
  ⟨by decide,
   (c8_amended_repair_preserves_valid_json c8wText [("a", .int 1)] (by decide)
     (by with_unfolding_all rfl)).1⟩

def c8BadText : String := "\x7b\"a\": \"```json\"\x7d"

/-- Claim C8 (counterexample): the text is a VALID JSON object whose string
value contains a code-fence marker; the repair sequence's fence-stripping
deletes the marker inside the string, so the recovered object is NOT
equivalent to the input's parse — well-formed input is corrupted. -/
theorem c8_counterexample :
    pyLoads c8BadText = some (.dict [("a", .str "```json")]) ∧
    claudeJsonSeq c8BadText.toList = some [("a", .str "")] ∧
    ("```json" : String) ≠ "" := by
  refine ⟨by with_unfolding_all rfl, by with_unfolding_all rfl, by decide⟩

/-- Claim C3: on a cache bypass with the primary client configured at the
default temperature 0, `analyze_vendors` attempts OpenAI first — one call
with temperature 0 and the JSON-constrained response format; when that
attempt raises or yields a non-dict result, the Claude fallback is invoked
exactly once; when it also fails, the entry point returns `None` and no
insight record is persisted. -/
theorem c3_primary_then_single_fallback (cfg : Cfg) (rows : List ExpenseRow)
    (lr : Except String (Option InsightRow)) (oT cT : Except String String)
    (sv : Except String Unit) (now : ℕ)
    (hcfg : cfg.openaiConfigured = true) (htemp : cfg.temperature = 0)
    (hne : rows ≠ [])
    (ho : openaiJsonResult oT = Option.none)
    (hc : claudeJsonResult cT = Option.none) :
    (analyzeVendors cfg ⟨.ok rows, lr, oT, cT, sv, now⟩ true).result = Option.none ∧
    providerCalls (analyzeVendors cfg ⟨.ok rows, lr, oT, cT, sv, now⟩ true).events =
      [.openaiCall 0 "json_object", .claudeCall] ∧
    storeWriteCount (analyzeVendors cfg ⟨.ok rows, lr, oT, cT, sv, now⟩ true).events = 0 := by
  have hgather : ¬ ((gatherVendorData rows).1.isEmpty = true) := by
    rw [List.isEmpty_iff]
    exact gatherVendors_ne_nil rows hne
  set env : Env := ⟨.ok rows, lr, oT, cT, sv, now⟩ with henv
  have hO : (runOpenaiJson cfg env).1 = Option.none := by
    rw [runOpenaiJson_fst cfg env hcfg]
    exact ho
  have hC : (runClaudeJson env).1 = Option.none := by
    rw [runClaudeJson_fst env]
    exact hc
  have hbody : analyzeVendorsBody cfg env true =
      (.ok Option.none,
       ([] ++ (runOpenaiJson cfg env).2 ++ (runClaudeJson env).2) ++
         [.ui (.error "Vendor Intelligence: both OpenAI and Claude failed to produce valid JSON.")]) := by
    unfold analyzeVendorsBody
    dsimp only
    rw [if_neg hgather]
    simp only [reduceIte]
    rw [hO]
    dsimp only
    rw [hC]
  have hmain : analyzeVendors cfg env true =
      ⟨Option.none,
       ([] ++ (runOpenaiJson cfg env).2 ++ (runClaudeJson env).2) ++
         [.ui (.error "Vendor Intelligence: both OpenAI and Claude failed to produce valid JSON.")]⟩ := by
    unfold analyzeVendors
    rw [hbody]
  rw [hmain]
  refine ⟨rfl, ?_, ?_⟩
  · dsimp only
    rw [providerCalls_append, providerCalls_append, providerCalls_append,
      providerCalls_runOpenai cfg env hcfg, providerCalls_runClaude env, htemp]
    rfl
  · dsimp only
    rw [storeWriteCount_append, storeWriteCount_append, storeWriteCount_append,
      storeWriteCount_runOpenai cfg env, storeWriteCount_runClaude env]
    rfl

theorem c3_primary_then_single_fallback_witness :
    (analyzeVendors {} ⟨.ok c9wRows, .ok Option.none, .error "boom", .error "boom2",
      .ok (), 7⟩ true).result = Option.none ∧
    providerCalls (analyzeVendors {} ⟨.ok c9wRows, .ok Option.none, .error "boom",
      .error "boom2", .ok (), 7⟩ true).events =
      [.openaiCall 0 "json_object", .claudeCall] ∧
    storeWriteCount (analyzeVendors {} ⟨.ok c9wRows, .ok Option.none, .error "boom",
      .error "boom2", .ok (), 7⟩ true).events = 0 :=
  c3_primary_then_single_fallback {} c9wRows (.ok Option.none) (.error "boom")
    (.error "boom2") (.ok ()) 7 rfl rfl (by decide) rfl rfl

/-- Claim C1: the cache-hit path.  With `force_rerun=False`, a stored
latest insight record whose analysis carries an `input_hash` equal to the
freshly computed fingerprint of the current aggregated data makes
`analyze_vendors` return that stored analysis unchanged, after exactly one
store read — no provider (neither the primary nor the fallback) is called
and nothing is written. -/
theorem c1_cache_hit_suppresses_llm (cfg : Cfg) (rows : List ExpenseRow)
    (row : InsightRow) (oT cT : Except String String) (sv : Except String Unit)
    (now : ℕ) (hne : rows ≠ [])
    (hhash : strPyStrip (pyStrOf ((dictGet (variantToObjDict row.data)
      "input_hash").getD (.str ""))) = fingerprintOf cfg rows) :
    analyzeVendors cfg ⟨.ok rows, .ok (some row), oT, cT, sv, now⟩ false =
      ⟨some ⟨row.generated_at, .dict (variantToObjDict row.data),
        (dictGet (variantToObjDict row.data) "opportunities").getD (.list []),
        (dictGet (variantToObjDict row.data) "recommendations").getD (.list []),
        row.est_savings.getD 0⟩, [.storeRead]⟩ ∧
    providerCalls (analyzeVendors cfg ⟨.ok rows, .ok (some row), oT, cT, sv, now⟩
      false).events = [] := by
  have hgather : ¬ ((gatherVendorData rows).1.isEmpty = true) := by
    rw [List.isEmpty_iff]
    exact gatherVendors_ne_nil rows hne
  set env : Env := ⟨.ok rows, .ok (some row), oT, cT, sv, now⟩ with henv
  have hbody : analyzeVendorsBody cfg env false =
      (.ok (some ⟨row.generated_at, .dict (variantToObjDict row.data),
        (dictGet (variantToObjDict row.data) "opportunities").getD (.list []),
        (dictGet (variantToObjDict row.data) "recommendations").getD (.list []),
        row.est_savings.getD 0⟩), [.storeRead]) := by
    unfold analyzeVendorsBody
    dsimp only
    rw [if_neg hgather]
    rw [if_neg Bool.false_ne_true]
    dsimp only [getLatestInsights]
    rw [if_pos hhash]
    dsimp only [cacheHitResult]
  have hmain : analyzeVendors cfg env false =
      ⟨some ⟨row.generated_at, .dict (variantToObjDict row.data),
        (dictGet (variantToObjDict row.data) "opportunities").getD (.list []),
        (dictGet (variantToObjDict row.data) "recommendations").getD (.list []),
        row.est_savings.getD 0⟩, [.storeRead]⟩ := by
    unfold analyzeVendors
    rw [hbody]
  rw [hmain]
  exact ⟨rfl, rfl⟩

set_option maxRecDepth 8000 in
def c1wRows : List ExpenseRow :=
  [⟨some "Ace", some "Tools", mkRat 100 1, "p1", some "2024-01-01"⟩]

def c1wAnalysis : List (String × PyVal) :=
  [("input_hash", .str (fingerprintOf {} c1wRows)), ("opportunities", .list [])]

def c1wRow : InsightRow := ⟨"VENDOR-1", .dict c1wAnalysis, .list [], some 5, 42⟩

set_option maxRecDepth 8000 in
theorem c1_cache_hit_suppresses_llm_witness :
    analyzeVendors {} ⟨.ok c1wRows, .ok (some c1wRow), .error "x", .error "x",
        .ok (), 99⟩ false =
      ⟨some ⟨42, .dict c1wAnalysis, .list [], .list [], 5⟩, [.storeRead]⟩ ∧
    providerCalls (analyzeVendors {} ⟨.ok c1wRows, .ok (some c1wRow), .error "x",
      .error "x", .ok (), 99⟩ false).events = [] :=
  c1_cache_hit_suppresses_llm {} c1wRows c1wRow (.error "x") (.error "x") (.ok ()) 99
    (by decide) (by with_unfolding_all rfl)

end VendorIntel
